import Mathlib

/-!
View-state and animation-sequencing core of the portfolio page (`src/App.js`).

A shallow embedding of the stateful parts of `App.js`:

* `ContactTerminal`: the hook state `form`, `loading`, `sent`, the submit handler
  `handleSubmit` and the two timeouts it creates;
* `TypewriterText`: the hook state `displayText`, `currentIndex` and the effect that
  schedules one 100 ms timeout per character;
* the width tests: `window.innerWidth < 768` of the resize handlers and the two
  `@media` queries of the injected style sheet.

React hook state is modelled by explicit state passing. The browser's timer table is
modelled by an explicit list of pending timeouts, each holding what its closure captured.
Time is counted in milliseconds.
-/

namespace App

/-! ## ContactTerminal -/

namespace ContactTerminal

/-- The value of the `form` hook: `{ name, email, message }`. -/
structure Form where
  name : String
  email : String
  message : String
deriving DecidableEq, Repr

/-- The literal `{ name: "", email: "", message: "" }`. -/
def emptyForm : Form := { name := "", email := "", message := "" }

/-- The two closures that `handleSubmit` hands to `setTimeout`:
`resolve` is the outer arrow function (delay 1500), `hideSent` is
`() => setSent(false)` (delay 3000). -/
inductive Callback where
  | resolve
  | hideSent
deriving DecidableEq, Repr

/-- A pending timeout: the handle returned by `setTimeout`, the time at which it expires
and the closure to run. -/
structure Timer where
  id : Nat
  due : Nat
  cb : Callback
deriving DecidableEq, Repr

/-- The state of one mounted `ContactTerminal` together with the part of the browser it
touches: the clock `now` (ms), the pending timeouts in the order they were created, the
next timer handle, and whether the component is still mounted. -/
structure State where
  form : Form
  loading : Bool
  sent : Bool
  now : Nat
  timers : List Timer
  nextId : Nat
  mounted : Bool
deriving DecidableEq, Repr

/-- The state right after mount: `useState({ name: "", email: "", message: "" })`,
`useState(false)`, `useState(false)`; nothing scheduled. -/
def init : State :=
  { form := emptyForm, loading := false, sent := false, now := 0, timers := [],
    nextId := 0, mounted := true }

/-- The call `setTimeout(cb, delay)`: a new pending timeout due `delay` ms from now. -/
def setTimeout (cb : Callback) (delay : Nat) (s : State) : State :=
  { s with timers := s.timers ++ [{ id := s.nextId, due := s.now + delay, cb := cb }],
           nextId := s.nextId + 1 }

/-- The body of `handleSubmit`: `e.preventDefault(); setLoading(true);
setTimeout(() => ..., 1500)`. There is no test of `loading` in it. -/
def handleSubmit (s : State) : State :=
  setTimeout Callback.resolve 1500 { s with loading := true }

/-- Running a timeout closure. `resolve` is
`setLoading(false); setSent(true); setTimeout(() => setSent(false), 3000);
setForm({ name: "", email: "", message: "" })`; `hideSent` is `setSent(false)`.
The setters are invoked whether or not the component is still mounted; the model
records what they write. -/
def runCallback : Callback → State → State
  | Callback.resolve, s =>
      let s1 := { s with loading := false }
      let s2 := { s1 with sent := true }
      let s3 := setTimeout Callback.hideSent 3000 s2
      { s3 with form := emptyForm }
  | Callback.hideSent, s => { s with sent := false }

/-- The pending timeout that expires first: least `due`, the earlier created one on a
tie (the order in which a browser runs timeouts). -/
def nextTimer : List Timer → Option Timer
  | [] => none
  | t :: ts =>
      match nextTimer ts with
      | none => some t
      | some u => if u.due < t.due then some u else some t

/-- One timeout expires: the clock reaches its due time, the timeout leaves the table
and its closure runs. With nothing pending this does nothing. -/
def expire (s : State) : State :=
  match nextTimer s.timers with
  | none => s
  | some t =>
      runCallback t.cb
        { s with now := max s.now t.due, timers := s.timers.filter (fun u => u.id != t.id) }

/-- The three text inputs of the form; each has the attribute `required`. -/
inductive Field where
  | name
  | email
  | message
deriving DecidableEq, Repr

/-- The `onChange` handlers: `setForm({ ...form, name: e.target.value })` and likewise
for `email` and `message`. -/
def onChange (f : Field) (v : String) (s : State) : State :=
  match f with
  | Field.name => { s with form := { s.form with name := v } }
  | Field.email => { s with form := { s.form with email := v } }
  | Field.message => { s with form := { s.form with message := v } }

/-- The `required` attributes: the browser dispatches no submit event while one of the
three inputs is empty. -/
def requiredFilled (f : Form) : Bool :=
  f.name != "" && f.email != "" && f.message != ""

/-- A submit request made through the rendered form (`<form onSubmit={handleSubmit}>`):
it reaches `handleSubmit` only when the component is mounted, the submit button is not
disabled (`disabled={loading}`) and the required inputs are filled. The further check a
browser makes on an input of `type="email"` is left out here, so this is an upper bound:
it admits every submit a browser admits and some it refuses. It serves the properties
that hold of every submit; `submitChecked` is the request with that check. -/
def submitRequest (s : State) : State :=
  if s.mounted && !s.loading && requiredFilled s.form then handleSubmit s else s

/-- Time passes by `dt` ms with no timeout expiring; this is possible only up to the
due time of the first pending timeout. -/
def pass (dt : Nat) (s : State) : State :=
  if s.timers.all (fun t => decide (s.now + dt ≤ t.due)) then { s with now := s.now + dt } else s

/-- Unmounting `ContactTerminal`. Its only effect cleanup is
`window.removeEventListener("resize", handleResize)`; no `clearTimeout` is called, so
the table of pending timeouts is left as it is. -/
def unmount (s : State) : State :=
  { s with mounted := false }

/-- What can happen to a `ContactTerminal`. -/
inductive Event where
  | edit (f : Field) (v : String)
  | submit
  | expire
  | pass (dt : Nat)
  | unmount
deriving DecidableEq, Repr

/-- One event. Edits and submit requests need the rendered form, so they do nothing once
the component is unmounted. -/
def step (s : State) : Event → State
  | Event.edit f v => if s.mounted then onChange f v s else s
  | Event.submit => submitRequest s
  | Event.expire => expire s
  | Event.pass dt => pass dt s
  | Event.unmount => unmount s

/-- A sequence of events, first to last. -/
def run (s : State) (es : List Event) : State :=
  es.foldl step s

/-- Let the clock run to the absolute time `t`: every timeout due by then expires, in
order, and then the clock is set to `t`. `fuel` bounds the number of expiries. -/
def runUntilAux (t : Nat) : Nat → State → State
  | 0, s => { s with now := max s.now t }
  | fuel + 1, s =>
      match nextTimer s.timers with
      | none => { s with now := max s.now t }
      | some u => if u.due ≤ t then runUntilAux t fuel (expire s) else { s with now := max s.now t }

/-- A `resolve` timeout can cause two expiries (its own and that of the `hideSent`
timeout it creates), a `hideSent` timeout one. -/
def weight : List Timer → Nat
  | [] => 0
  | t :: ts => (match t.cb with | Callback.resolve => 2 | Callback.hideSent => 1) + weight ts

/-- The state at absolute time `t`, all timeouts due by then having run. -/
def runUntil (t : Nat) (s : State) : State :=
  runUntilAux t (weight s.timers) s

/-- The submission states named by the specification. -/
inductive SubmissionState where
  | Idle
  | Submitting
  | Succeeded
deriving DecidableEq, Repr

/-- Reading the specification's enum off the two flags: `Submitting` is `loading`,
`Succeeded` is `sent`, `Idle` is neither. Both flags set is none of the three. -/
def phase (s : State) : Option SubmissionState :=
  match s.loading, s.sent with
  | false, false => some SubmissionState.Idle
  | true, false => some SubmissionState.Submitting
  | false, true => some SubmissionState.Succeeded
  | true, true => none

/-- The number of pending 1500 ms resolutions. -/
def pendingResolutions (s : State) : Nat :=
  (s.timers.filter (fun t => t.cb == Callback.resolve)).length

/-- Every submit request of the trace is made in the `Idle` state (neither `loading`
nor `sent`), the trace being run from `s`. -/
def submitsWhenIdle : State → List Event → Bool
  | _, [] => true
  | s, e :: es =>
      (e != Event.submit || phase s == some SubmissionState.Idle) && submitsWhenIdle (step s e) es

/-- The transitions of the submission lifecycle named by the specification. -/
def lifecycleTransitions : List (SubmissionState × SubmissionState) :=
  [(SubmissionState.Idle, SubmissionState.Submitting),
   (SubmissionState.Submitting, SubmissionState.Succeeded),
   (SubmissionState.Succeeded, SubmissionState.Idle)]

/-- The shape of the states reached when every submit is made in the Idle state: Idle
with nothing pending, Submitting with exactly the resolution pending, or Succeeded with
exactly the 3000 ms timeout pending. -/
def Lifecycle (s : State) : Prop :=
  (s.loading = false ∧ s.sent = false ∧ s.timers = []) ∨
  (s.loading = true ∧ s.sent = false ∧
    ∃ i d, s.timers = [{ id := i, due := d, cb := Callback.resolve }]) ∨
  (s.loading = false ∧ s.sent = true ∧
    ∃ i d, s.timers = [{ id := i, due := d, cb := Callback.hideSent }])

/-- A user filling the three inputs. -/
def fill (name email message : String) : List Event :=
  [Event.edit Field.name name, Event.edit Field.email email, Event.edit Field.message message]

/-- The characters that the HTML standard calls `atext`: ASCII letters and digits and
the nineteen signs with code points 33, 35 to 39, 42, 43, 45, 47, 61, 63, 94 to 96 and
123 to 126. -/
def isAtext (c : Char) : Bool :=
  c.isAlphanum ||
    [33, 35, 36, 37, 38, 39, 42, 43, 45, 47, 61, 63, 94, 95, 96, 123, 124, 125, 126].contains
      c.toNat

/-- Splitting at every occurrence of a separator. -/
def splitOnChar (sep : Char) : List Char → List (List Char)
  | [] => [[]]
  | c :: cs =>
      if c = sep then [] :: splitOnChar sep cs
      else
        match splitOnChar sep cs with
        | [] => [[c]]
        | part :: parts => (c :: part) :: parts

/-- A domain label of the HTML standard: 1 to 63 letters, digits and hyphens, the first
and the last not a hyphen. -/
def validLabel (l : List Char) : Bool :=
  decide (l.length ≤ 63) && l.all (fun c => c.isAlphanum || c = '-') &&
    (l.head?.map Char.isAlphanum).getD false && (l.getLast?.map Char.isAlphanum).getD false

/-- The valid e-mail addresses of the HTML standard, against which a browser tests the
value of an input of `type="email"`: one or more `atext` characters or dots, an at sign,
and one or more labels separated by dots. -/
def validEmailAddress (s : String) : Bool :=
  match splitOnChar '@' s.toList with
  | [name, domain] =>
      !name.isEmpty && name.all (fun c => isAtext c || c = '.') &&
        (splitOnChar '.' domain).all validLabel
  | _ => false

/-- The constraint validation a browser runs before it dispatches the submit event of
the form: the three inputs are `required`, and the e-mail input is of `type="email"`, so
its value also has to pass the browser's test `typeMatches` for such inputs. -/
def formValid (typeMatches : String → Bool) (f : Form) : Bool :=
  requiredFilled f && typeMatches f.email

/-- A submit request made through the rendered form, the test of the e-mail input
included: `submitRequest` with the further condition that `submitRequest` leaves out. -/
def submitChecked (typeMatches : String → Bool) (s : State) : State :=
  if s.mounted && !s.loading && formValid typeMatches s.form then handleSubmit s else s

/-- A user typing into the inputs: one `onChange` per entry, first to last. -/
def edits (es : List (Field × String)) : List Event :=
  es.map fun e => Event.edit e.1 e.2

end ContactTerminal

/-! ## TypewriterText -/

namespace TypewriterText

/-- A JavaScript string: its sequence of UTF-16 code units. `text.length` is the length
of the list and `text[i]` its `i`-th code unit. -/
abbrev JSString := List Nat

/-- The code units of a character. -/
def utf16Char (c : Char) : List Nat :=
  if c.toNat < 65536 then [c.toNat]
  else [55296 + (c.toNat - 65536) / 1024, 56320 + (c.toNat - 65536) % 1024]

/-- The JavaScript string written as the given literal. -/
def utf16 (s : String) : JSString :=
  s.toList.flatMap utf16Char

/-- The operand `text[i]` of a string concatenation: the one code unit at `i`, or the
text `undefined` when `i` is out of range. -/
def charAt (text : JSString) (i : Nat) : JSString :=
  match text.get? i with
  | some c => [c]
  | none => utf16 "undefined"

/-- A pending tick: the handle returned by `setTimeout` and the values of `text` and
`currentIndex` captured by the closure. All ticks have the same delay (100 ms). -/
structure Tick where
  id : Nat
  text : JSString
  index : Nat
deriving DecidableEq, Repr

/-- One `TypewriterText` instance: the prop `text`, the hooks `displayText` and
`currentIndex`, the pending timeouts it created (oldest first), the handle that the
cleanup returned by the last effect run clears (none when the effect returned nothing),
the next timer handle, and whether the instance is mounted. -/
structure State where
  text : JSString
  displayText : JSString
  currentIndex : Nat
  timers : List Tick
  cleanup : Option Nat
  nextId : Nat
  mounted : Bool
deriving DecidableEq, Repr

/-- The call `clearTimeout(id)`. -/
def clearTimeout (id : Nat) (s : State) : State :=
  { s with timers := s.timers.filter (fun t => t.id != id) }

/-- The effect body: `if (currentIndex < text.length) { const timeout = setTimeout(...,
100); return () => clearTimeout(timeout); }`. -/
def effect (s : State) : State :=
  if s.currentIndex < s.text.length then
    { s with timers := s.timers ++ [{ id := s.nextId, text := s.text, index := s.currentIndex }],
             cleanup := some s.nextId,
             nextId := s.nextId + 1 }
  else
    { s with cleanup := none }

/-- Running the cleanup that the last effect run returned, if it returned one. -/
def runCleanup (s : State) : State :=
  match s.cleanup with
  | some id => clearTimeout id { s with cleanup := none }
  | none => s

/-- The first render and its effect: `useState("")`, `useState(0)`, then the effect. -/
def mount (text : JSString) : State :=
  effect { text := text, displayText := [], currentIndex := 0, timers := [], cleanup := none,
           nextId := 0, mounted := true }

/-- The timeout closure: `setDisplayText(prev => prev + text[currentIndex]);
setCurrentIndex(prev => prev + 1)` with the captured `text` and `currentIndex`. -/
def callback (t : Tick) (s : State) : State :=
  { s with displayText := s.displayText ++ charAt t.text t.index,
           currentIndex := s.currentIndex + 1 }

/-- A render after a dependency (`currentIndex` or `text`) changed: the previous cleanup
runs, then the effect. -/
def rerender (s : State) : State :=
  effect (runCleanup s)

/-- One tick: the oldest pending timeout expires and its closure runs; `currentIndex`
has changed, so a mounted instance renders again. With nothing pending a tick does
nothing. -/
def tick (s : State) : State :=
  match s.timers with
  | [] => s
  | t :: rest =>
      let s1 := callback t { s with timers := rest }
      if s1.mounted then rerender s1 else s1

/-- Unmounting: the cleanup of the last effect run is executed. -/
def unmount (s : State) : State :=
  { runCleanup s with mounted := false }

/-- The state after `n` ticks. -/
def ticks : Nat → State → State
  | 0, s => s
  | n + 1, s => tick (ticks n s)

/-- The parent renders a mounted instance with the prop `text`. The dependency array is
`[currentIndex, text]`, so the cleanup and the effect run again exactly when the value of
`text` differs from the previous one. -/
def setText (text : JSString) (s : State) : State :=
  if s.mounted && text != s.text then rerender { s with text := text } else s

/-- What can happen to a `TypewriterText`. -/
inductive Event where
  | tick
  | setText (text : JSString)
  | unmount
deriving DecidableEq, Repr

/-- One event. -/
def step (s : State) : Event → State
  | Event.tick => tick s
  | Event.setText text => setText text s
  | Event.unmount => unmount s

/-- A sequence of events, first to last. -/
def run (s : State) (es : List Event) : State :=
  es.foldl step s

/-- The timer discipline of the effect: at most one tick is pending, a pending tick is
the one that the current cleanup clears, and an unmounted instance has none. -/
def Disciplined (s : State) : Prop :=
  s.timers.length ≤ 1 ∧ (∀ t ∈ s.timers, s.cleanup = some t.id) ∧
  (s.mounted = false → s.timers = [])

/-- What holds of a `TypewriterText` whatever happens to it: the timer discipline, as
many code units displayed as `currentIndex` says, and a pending tick that captured the
current `text` and `currentIndex`, the index being in range. -/
def Synced (s : State) : Prop :=
  Disciplined s ∧ s.displayText.length = s.currentIndex ∧
  ∀ t ∈ s.timers, t.text = s.text ∧ t.index = s.currentIndex ∧ t.index < t.text.length

end TypewriterText

/-! ## Width tests -/

namespace Responsive

/-- The test `window.innerWidth < 768` that every resize handler passes to
`setIsMobile`. -/
def isMobile (innerWidth : Nat) : Bool :=
  decide (innerWidth < 768)

/-- The query `@media (max-width: 768px)` guarding the mobile block of the injected
style sheet. -/
def mobileMedia (width : Nat) : Bool :=
  decide (width ≤ 768)

/-- The query `@media (min-width: 769px) and (max-width: 1024px)` guarding the tablet
block of the injected style sheet. -/
def tabletMedia (width : Nat) : Bool :=
  decide (769 ≤ width) && decide (width ≤ 1024)

/-- The device classes named by the specification. -/
inductive DeviceClass where
  | Mobile
  | Tablet
  | Desktop
deriving DecidableEq, Repr

/-- The classification in the specification's words: width below 768 is mobile, 768 to
1024 is tablet, anything else is desktop. -/
def specDeviceClass (w : Nat) : DeviceClass :=
  if w < 768 then DeviceClass.Mobile
  else if w ≤ 1024 then DeviceClass.Tablet
  else DeviceClass.Desktop

/-- The class whose block of the injected style sheet applies at a width: the mobile
block, the tablet block, or neither. -/
def styleDeviceClass (w : Nat) : DeviceClass :=
  if mobileMedia w then DeviceClass.Mobile
  else if tabletMedia w then DeviceClass.Tablet
  else DeviceClass.Desktop

end Responsive

/-! ## Window listeners, the mobile flags and the pointer position -/

namespace Viewport

/-- The components of the page: `App` and, in the order it renders them, its ten
children. -/
inductive Component where
  | App
  | CursorTracker
  | Navbar
  | HeroSection
  | SkillsConstellation
  | ExperienceTimeline
  | EducationOrbit
  | AchievementsGrid
  | ProjectsGalaxy
  | ContactTerminal
  | Footer
deriving DecidableEq, Repr

/-- The event types passed to `window.addEventListener`. -/
inductive EventType where
  | mousemove
  | scroll
  | resize
deriving DecidableEq, Repr

/-- The names of the handler closures created by the mount effects. -/
inductive Handler where
  | handleMouseMove
  | handleScroll
  | handleResize
deriving DecidableEq, Repr

/-- One entry of the window's listener list. A handler is a closure created by the mount
effect of its owner, so it is identified by that owner and its name. -/
structure Listener where
  event : EventType
  owner : Component
  handler : Handler
deriving DecidableEq, Repr

/-- The call `window.addEventListener(type, handler)`: an entry already present is not
added again. -/
def addEventListener (l : Listener) (ls : List Listener) : List Listener :=
  if l ∈ ls then ls else ls ++ [l]

/-- The call `window.removeEventListener(type, handler)`. -/
def removeEventListener (l : Listener) (ls : List Listener) : List Listener :=
  ls.filter (fun k => k != l)

/-- The statements of the mount effects and of their cleanups that touch the window or
the mobile flag: `setIsMobile(window.innerWidth < 768)` (written directly or as the call
`handleResize()`), `addEventListener` and `removeEventListener`. -/
inductive Op where
  | setIsMobile
  | add (event : EventType) (handler : Handler)
  | remove (event : EventType) (handler : Handler)
deriving DecidableEq, Repr

/-- The body of each component's mount effect, statement by statement. -/
def mountEffect : Component → List Op
  | Component.App => [Op.add EventType.mousemove Handler.handleMouseMove]
  | Component.CursorTracker => [Op.setIsMobile]
  | Component.Navbar =>
      [Op.setIsMobile, Op.add EventType.scroll Handler.handleScroll,
       Op.add EventType.resize Handler.handleResize]
  | Component.HeroSection => [Op.setIsMobile, Op.add EventType.resize Handler.handleResize]
  | Component.SkillsConstellation =>
      [Op.setIsMobile, Op.add EventType.resize Handler.handleResize]
  | Component.ExperienceTimeline =>
      [Op.setIsMobile, Op.add EventType.resize Handler.handleResize]
  | Component.EducationOrbit => [Op.setIsMobile, Op.add EventType.resize Handler.handleResize]
  | Component.AchievementsGrid => [Op.setIsMobile, Op.add EventType.resize Handler.handleResize]
  | Component.ProjectsGalaxy => [Op.setIsMobile, Op.add EventType.resize Handler.handleResize]
  | Component.ContactTerminal => [Op.add EventType.resize Handler.handleResize]
  | Component.Footer => [Op.add EventType.resize Handler.handleResize]

/-- The cleanup returned by each component's mount effect, statement by statement.
The effect of `CursorTracker` returns none. -/
def cleanup : Component → List Op
  | Component.App => [Op.remove EventType.mousemove Handler.handleMouseMove]
  | Component.CursorTracker => []
  | Component.Navbar =>
      [Op.remove EventType.scroll Handler.handleScroll,
       Op.remove EventType.resize Handler.handleResize]
  | Component.HeroSection => [Op.remove EventType.resize Handler.handleResize]
  | Component.SkillsConstellation => [Op.remove EventType.resize Handler.handleResize]
  | Component.ExperienceTimeline => [Op.remove EventType.resize Handler.handleResize]
  | Component.EducationOrbit => [Op.remove EventType.resize Handler.handleResize]
  | Component.AchievementsGrid => [Op.remove EventType.resize Handler.handleResize]
  | Component.ProjectsGalaxy => [Op.remove EventType.resize Handler.handleResize]
  | Component.ContactTerminal => [Op.remove EventType.resize Handler.handleResize]
  | Component.Footer => [Op.remove EventType.resize Handler.handleResize]

/-- The initial value of the `isMobile` hook: `useState(window.innerWidth < 768)` in
`ContactTerminal` and `Footer`, `useState(false)` in the others (`App` has no such
hook). -/
def useStateIsMobile : Component → Nat → Bool
  | Component.ContactTerminal, w => Responsive.isMobile w
  | Component.Footer, w => Responsive.isMobile w
  | _, _ => false

/-- The components that hold an `isMobile` hook: all but `App`. -/
def holdsIsMobile (c : Component) : Bool :=
  c != Component.App

/-- The value of the `mousePosition` hook of `App`. -/
structure MousePosition where
  x : Int
  y : Int
deriving DecidableEq, Repr

/-- The fields of a mouse event that `handleMouseMove` reads. -/
structure MouseEvent where
  clientX : Int
  clientY : Int
deriving DecidableEq, Repr

/-- The window and the hooks fed from it: `window.innerWidth`, the `isMobile` hook of
each component, the `mousePosition` hook of `App`, and the window's listener list. -/
structure Page where
  innerWidth : Nat
  isMobile : Component → Bool
  mousePosition : MousePosition
  listeners : List Listener

/-- Writing one component's `isMobile` hook. -/
def setIsMobile (c : Component) (b : Bool) (p : Page) : Page :=
  { p with isMobile := fun d => if d = c then b else p.isMobile d }

/-- One statement of an effect or cleanup of component `c`. -/
def runOp (c : Component) (p : Page) : Op → Page
  | Op.setIsMobile => setIsMobile c (Responsive.isMobile p.innerWidth) p
  | Op.add ev h =>
      { p with listeners := addEventListener { event := ev, owner := c, handler := h } p.listeners }
  | Op.remove ev h =>
      { p with listeners :=
          removeEventListener { event := ev, owner := c, handler := h } p.listeners }

/-- Mounting a component: the first render evaluates the `useState` initial value, then
the mount effect runs. -/
def mountComponent (c : Component) (p : Page) : Page :=
  (mountEffect c).foldl (runOp c) (setIsMobile c (useStateIsMobile c p.innerWidth) p)

/-- Unmounting a component: the cleanup of its mount effect runs. -/
def unmountComponent (c : Component) (p : Page) : Page :=
  (cleanup c).foldl (runOp c) p

/-- The order in which the mount effects run: the children in render order, then
`App`. -/
def components : List Component :=
  [Component.CursorTracker, Component.Navbar, Component.HeroSection,
   Component.SkillsConstellation, Component.ExperienceTimeline, Component.EducationOrbit,
   Component.AchievementsGrid, Component.ProjectsGalaxy, Component.ContactTerminal,
   Component.Footer, Component.App]

/-- The page before anything is mounted, at window width `w`:
`useState({ x: 0, y: 0 })` for the pointer, no listener. -/
def blank (w : Nat) : Page :=
  { innerWidth := w, isMobile := fun _ => false, mousePosition := { x := 0, y := 0 },
    listeners := [] }

/-- The whole page mounted at window width `w`. -/
def mountAll (w : Nat) : Page :=
  components.foldl (fun p c => mountComponent c p) (blank w)

/-- The signals the window delivers: a resize to a new inner width, or a mouse move. -/
inductive Signal where
  | resize (innerWidth : Nat)
  | mousemove (e : MouseEvent)
deriving DecidableEq, Repr

/-- The event type of a signal. -/
def Signal.eventType : Signal → EventType
  | Signal.resize _ => EventType.resize
  | Signal.mousemove _ => EventType.mousemove

/-- Running a registered handler. `handleResize` is
`() => setIsMobile(window.innerWidth < 768)` in every component that has one;
`handleMouseMove` is `(e) => setMousePosition({ x: e.clientX, y: e.clientY })`;
`handleScroll` writes the `scrolled` hook of `Navbar`, which is not part of `Page`. -/
def runHandler (l : Listener) (sig : Signal) (p : Page) : Page :=
  match l.handler, sig with
  | Handler.handleResize, _ => setIsMobile l.owner (Responsive.isMobile p.innerWidth) p
  | Handler.handleMouseMove, Signal.mousemove e =>
      { p with mousePosition := { x := e.clientX, y := e.clientY } }
  | _, _ => p

/-- The window delivers a signal: a resize first changes `window.innerWidth`; then every
listener registered for the event type runs, in registration order. -/
def dispatch (p : Page) (sig : Signal) : Page :=
  let p1 := match sig with
    | Signal.resize w => { p with innerWidth := w }
    | Signal.mousemove _ => p
  p1.listeners.foldl
    (fun q l => if l.event = sig.eventType then runHandler l sig q else q) p1

/-- A sequence of signals, first to last. -/
def signals (p : Page) (sigs : List Signal) : Page :=
  sigs.foldl dispatch p

/-- The window width after a sequence of resizes starting from width `w`. -/
def lastWidth (w : Nat) : List Nat → Nat
  | [] => w
  | v :: vs => lastWidth v vs

/-- The listeners a component's mount effect registers, read off `mountEffect`. -/
def subscriptions (c : Component) : List Listener :=
  (mountEffect c).filterMap fun op =>
    match op with
    | Op.add ev h => some { event := ev, owner := c, handler := h }
    | _ => none

/-- The listeners a component's cleanup removes, read off `cleanup`. -/
def releases (c : Component) : List Listener :=
  (cleanup c).filterMap fun op =>
    match op with
    | Op.remove ev h => some { event := ev, owner := c, handler := h }
    | _ => none

/-- Whether a component's mount effect registers a resize handler. -/
def subscribesResize (c : Component) : Bool :=
  (mountEffect c).contains (Op.add EventType.resize Handler.handleResize)

/-- The window's listener list once the whole page is mounted. -/
def mountedListeners : List Listener :=
  [{ event := EventType.scroll, owner := Component.Navbar, handler := Handler.handleScroll },
   { event := EventType.resize, owner := Component.Navbar, handler := Handler.handleResize },
   { event := EventType.resize, owner := Component.HeroSection,
     handler := Handler.handleResize },
   { event := EventType.resize, owner := Component.SkillsConstellation,
     handler := Handler.handleResize },
   { event := EventType.resize, owner := Component.ExperienceTimeline,
     handler := Handler.handleResize },
   { event := EventType.resize, owner := Component.EducationOrbit,
     handler := Handler.handleResize },
   { event := EventType.resize, owner := Component.AchievementsGrid,
     handler := Handler.handleResize },
   { event := EventType.resize, owner := Component.ProjectsGalaxy,
     handler := Handler.handleResize },
   { event := EventType.resize, owner := Component.ContactTerminal,
     handler := Handler.handleResize },
   { event := EventType.resize, owner := Component.Footer, handler := Handler.handleResize },
   { event := EventType.mousemove, owner := Component.App,
     handler := Handler.handleMouseMove }]

end Viewport

/-! ## HeroSection: scroll progress and parallax -/

namespace HeroSection

/-- Clamping to the unit interval. -/
def clamp01 (x : ℚ) : ℚ :=
  max 0 (min 1 x)

/-- A quotient, undefined when the divisor is zero. -/
def divide (a b : ℚ) : Option ℚ :=
  if b = 0 then none else some (a / b)

/-- Modelled from the spec: the scroll progress of a tracked region, which
`useScroll` of the framer-motion library computes (the library is not under `src/`).
The specification gives it as `clamp((currentScroll − startOffset) / (endOffset −
startOffset), 0, 1)` and asks a zero-height region to be treated as a single point,
with progress 0 or 1 according to the scroll position relative to that point. -/
def scrollProgress (startOffset endOffset currentScroll : ℚ) : Option ℚ :=
  if endOffset = startOffset then
    some (if currentScroll < startOffset then 0 else 1)
  else
    (divide (currentScroll - startOffset) (endOffset - startOffset)).map clamp01

/-- The call in `HeroSection`: `useScroll({ target: containerRef, offset: ["start start",
"end start"] })`. The region starts where the top of the section reaches the top of the
viewport and ends where the bottom of the section reaches it, so for a section whose top
is at `top` in the document and whose height is `height` it is `[top, top + height]`. -/
def scrollYProgress (top height currentScroll : ℚ) : Option ℚ :=
  scrollProgress top (top + height) currentScroll

/-- Modelled from the spec: `useTransform(value, [inLo, inHi], [outLo, outHi])` of the
framer-motion library (not under `src/`), the linear interpolation that maps the input
range onto the output range. The outputs are percentages. -/
def useTransform (inLo inHi outLo outHi value : ℚ) : ℚ :=
  outLo + (outHi - outLo) * ((value - inLo) / (inHi - inLo))

/-- `const backgroundY = useTransform(scrollYProgress, [0, 1], ["0%", "50%"])`. -/
def backgroundY (progress : ℚ) : ℚ :=
  useTransform 0 1 0 50 progress

/-- `const textY = useTransform(scrollYProgress, [0, 1], ["0%", isMobile ? "50%" :
"100%"])`. -/
def textY (isMobile : Bool) (progress : ℚ) : ℚ :=
  useTransform 0 1 0 (if isMobile then 50 else 100) progress

/-- One particle of the hero background, as built in the `useMemo` of `particles`. -/
structure Particle where
  id : Nat
  x : ℚ
  y : ℚ
  size : ℚ
  speed : ℚ
  opacity : ℚ
deriving DecidableEq, Repr

/-- The particle count: `isMobile ? 50 : 150`. -/
def particleCount (isMobile : Bool) : Nat :=
  if isMobile then 50 else 150

/-- The particle with index `i`; `random k` is the value of the `k`-th call of
`Math.random()` made while the list is built, five calls per particle:
`x: Math.random() * 100`, `y: Math.random() * 100`,
`size: Math.random() * (isMobile ? 2 : 3) + 1`, `speed: Math.random() * 0.5 + 0.1`,
`opacity: Math.random() * 0.8 + 0.2`. -/
def particle (isMobile : Bool) (random : Nat → ℚ) (i : Nat) : Particle :=
  { id := i,
    x := random (5 * i) * 100,
    y := random (5 * i + 1) * 100,
    size := random (5 * i + 2) * (if isMobile then 2 else 3) + 1,
    speed := random (5 * i + 3) * 0.5 + 0.1,
    opacity := random (5 * i + 4) * 0.8 + 0.2 }

/-- The list `particles`: `Array.from({ length: isMobile ? 50 : 150 }, (_, i) => ...)`. -/
def particles (isMobile : Bool) (random : Nat → ℚ) : List Particle :=
  (List.range (particleCount isMobile)).map (particle isMobile random)

/-- The `duration` of a particle's transition: `isMobile ? 4 : 3 + particle.speed * 2`. -/
def particleDuration (isMobile : Bool) (p : Particle) : ℚ :=
  if isMobile then 4 else 3 + p.speed * 2

/-- One node of the hero network. -/
structure Node where
  x : ℚ
  y : ℚ
  connections : Int
deriving DecidableEq, Repr

/-- The node count: `const nodeCount = isMobile ? 8 : 20`. -/
def nodeCount (isMobile : Bool) : Nat :=
  if isMobile then 8 else 20

/-- The node pushed in round `i` of the loop, three calls of `Math.random()` per node:
`x: Math.random() * 100`, `y: Math.random() * 100`,
`connections: Math.floor(Math.random() * 3) + 1`. -/
def node (random : Nat → ℚ) (i : Nat) : Node :=
  { x := random (3 * i) * 100,
    y := random (3 * i + 1) * 100,
    connections := ⌊random (3 * i + 2) * 3⌋ + 1 }

/-- The list `connections`: the loop `for (let i = 0; i < nodeCount; i++) nodes.push(...)`. -/
def connections (isMobile : Bool) (random : Nat → ℚ) : List Node :=
  (List.range (nodeCount isMobile)).map (node random)

/-- The guard of the connecting line of node `index`:
`index < connections.length - 1`. -/
def drawsLine (nodes : List Node) (index : Nat) : Bool :=
  decide ((index : Int) < (nodes.length : Int) - 1)

/-- The rendering `connections.map((node, index) => ...)` as far as the lines go: for
each index none when no line is drawn, and otherwise the result of the access
`connections[index + 1]` that the line's `x2` and `y2` make, itself none when the index
is out of range. -/
def lineEnds (nodes : List Node) : List (Option (Option Node)) :=
  (List.range nodes.length).map fun index =>
    if drawsLine nodes index then some (nodes.get? (index + 1)) else none

end HeroSection

/-! ## Reveal on visibility and staggered delays -/

namespace Reveal

open Viewport (Component)

/-- The value returned by `useInView` together with the number of times the flag has
gone from false to true (the "became visible" notifications). -/
structure InView where
  inView : Bool
  notified : Nat
deriving DecidableEq, Repr

/-- The value of `useInView` on mount: not in view. -/
def InView.init : InView :=
  { inView := false, notified := 0 }

/-- Modelled from the spec: the hook `useInView(ref, { once })` of the framer-motion
library (not under `src/`) on one intersection signal. Entering the viewport sets the
flag; with `once` the flag is never reset and later signals are no-ops, without it
leaving the viewport resets the flag. -/
def useInView (once : Bool) (s : InView) (isIntersecting : Bool) : InView :=
  if isIntersecting then
    (if s.inView then s else { inView := true, notified := s.notified + 1 })
  else
    (if once then s else { s with inView := false })

/-- A sequence of intersection signals on a fresh mount, first to last. -/
def intersections (once : Bool) (sigs : List Bool) : InView :=
  sigs.foldl (useInView once) InView.init

/-- The option object each component passes to `useInView`: `{ once: true }` in the six
sections that call it, none in the components that do not call `useInView`. -/
def inViewOnce : Component → Option Bool
  | Component.SkillsConstellation => some true
  | Component.ExperienceTimeline => some true
  | Component.EducationOrbit => some true
  | Component.AchievementsGrid => some true
  | Component.ProjectsGalaxy => some true
  | Component.ContactTerminal => some true
  | _ => none

/-- The lists of the page whose items get a delay derived from their index. -/
inductive StaggeredList where
  | navDesktop
  | navMobile
  | heroParticles
  | heroNodes
  | heroLines
  | skillCards
  | skillBars
  | experienceCards
  | experienceDots
  | educationCards
  | educationBars
  | achievements
  | certifications
  | extraCurricular
  | projectCards
  | projectBars
deriving DecidableEq, Repr

/-- The component that renders each list. -/
def StaggeredList.owner : StaggeredList → Component
  | StaggeredList.navDesktop => Component.Navbar
  | StaggeredList.navMobile => Component.Navbar
  | StaggeredList.heroParticles => Component.HeroSection
  | StaggeredList.heroNodes => Component.HeroSection
  | StaggeredList.heroLines => Component.HeroSection
  | StaggeredList.skillCards => Component.SkillsConstellation
  | StaggeredList.skillBars => Component.SkillsConstellation
  | StaggeredList.experienceCards => Component.ExperienceTimeline
  | StaggeredList.experienceDots => Component.ExperienceTimeline
  | StaggeredList.educationCards => Component.EducationOrbit
  | StaggeredList.educationBars => Component.EducationOrbit
  | StaggeredList.achievements => Component.AchievementsGrid
  | StaggeredList.certifications => Component.AchievementsGrid
  | StaggeredList.extraCurricular => Component.AchievementsGrid
  | StaggeredList.projectCards => Component.ProjectsGalaxy
  | StaggeredList.projectBars => Component.ProjectsGalaxy

/-- The `delay` of the `transition` prop of item `index` of each list, in seconds, as the
source writes it. Only the hero particles use `isMobile`
(`particle.id * (isMobile ? 0.05 : 0.1)`, where `particle.id` is the index). -/
def delay (l : StaggeredList) (isMobile : Bool) (index : Nat) : ℚ :=
  match l with
  | StaggeredList.navDesktop => index * 0.1
  | StaggeredList.navMobile => index * 0.1
  | StaggeredList.heroParticles => index * (if isMobile then 0.05 else 0.1)
  | StaggeredList.heroNodes => index * 0.2
  | StaggeredList.heroLines => index * 0.3
  | StaggeredList.skillCards => index * 0.05
  | StaggeredList.skillBars => index * 0.05 + 0.5
  | StaggeredList.experienceCards => index * 0.3
  | StaggeredList.experienceDots => index * 0.3 + 0.5
  | StaggeredList.educationCards => index * 0.15
  | StaggeredList.educationBars => index * 0.2 + 0.5
  | StaggeredList.achievements => index * 0.2 + 0.5
  | StaggeredList.certifications => index * 0.1 + 0.7
  | StaggeredList.extraCurricular => index * 0.1 + 0.9
  | StaggeredList.projectCards => index * 0.1
  | StaggeredList.projectBars => index * 0.1 + 0.3

/-- An animation target: the animated properties with their value or keyframes. The
empty target is the object `{}`. -/
abbrev Target := List (String × List ℚ)

/-- The `animate` prop of the items of each list, as the source writes it. In the
sections that call `useInView` it is `inView ? target : {}`; in `Navbar` and
`HeroSection`, which have no `inView`, it is a fixed target. `opacity` is
`particle.opacity`, used by the hero particles only. -/
def animate (l : StaggeredList) (inView : Bool) (opacity : ℚ) : Target :=
  match l with
  | StaggeredList.navDesktop => [("opacity", [1]), ("y", [0])]
  | StaggeredList.navMobile => [("x", [0]), ("opacity", [1])]
  | StaggeredList.heroParticles =>
      [("opacity", [opacity, opacity * 0.3, opacity]), ("scale", [1, 1.5, 1]),
       ("y", [0, -20, 0])]
  | StaggeredList.heroNodes => [("opacity", [0.3, 1, 0.3]), ("scale", [1, 1.3, 1])]
  | StaggeredList.heroLines => [("pathLength", [1])]
  | StaggeredList.skillCards =>
      if inView then [("opacity", [1]), ("y", [0]), ("scale", [1])] else []
  | StaggeredList.skillBars => if inView then [("scaleX", [1])] else []
  | StaggeredList.experienceCards => if inView then [("opacity", [1]), ("x", [0])] else []
  | StaggeredList.experienceDots => if inView then [("scale", [1])] else []
  | StaggeredList.educationCards => if inView then [("opacity", [1]), ("y", [0])] else []
  | StaggeredList.educationBars => if inView then [("scaleX", [1])] else []
  | StaggeredList.achievements => if inView then [("opacity", [1]), ("x", [0])] else []
  | StaggeredList.certifications => if inView then [("opacity", [1]), ("x", [0])] else []
  | StaggeredList.extraCurricular => if inView then [("opacity", [1]), ("x", [0])] else []
  | StaggeredList.projectCards =>
      if inView then [("opacity", [1]), ("y", [0]), ("scale", [1])] else []
  | StaggeredList.projectBars => if inView then [("scaleX", [1])] else []

/-- The delay of the specification's sequencer:
`effectiveDelay = baseDelay + index × staggerInterval`. -/
def effectiveDelay (baseDelay staggerInterval : ℚ) (index : Nat) : ℚ :=
  baseDelay + index * staggerInterval

/-- The constant summand of each list's delay expression in the source. -/
def baseDelay : StaggeredList → ℚ
  | StaggeredList.skillBars => 0.5
  | StaggeredList.experienceDots => 0.5
  | StaggeredList.educationBars => 0.5
  | StaggeredList.achievements => 0.5
  | StaggeredList.certifications => 0.7
  | StaggeredList.extraCurricular => 0.9
  | StaggeredList.projectBars => 0.3
  | _ => 0

/-- The factor of the index in each list's delay expression in the source. -/
def staggerInterval (l : StaggeredList) (isMobile : Bool) : ℚ :=
  match l with
  | StaggeredList.navDesktop => 0.1
  | StaggeredList.navMobile => 0.1
  | StaggeredList.heroParticles => if isMobile then 0.05 else 0.1
  | StaggeredList.heroNodes => 0.2
  | StaggeredList.heroLines => 0.3
  | StaggeredList.skillCards => 0.05
  | StaggeredList.skillBars => 0.05
  | StaggeredList.experienceCards => 0.3
  | StaggeredList.experienceDots => 0.3
  | StaggeredList.educationCards => 0.15
  | StaggeredList.educationBars => 0.2
  | StaggeredList.achievements => 0.2
  | StaggeredList.certifications => 0.1
  | StaggeredList.extraCurricular => 0.1
  | StaggeredList.projectCards => 0.1
  | StaggeredList.projectBars => 0.1

end Reveal

/-! ## ProfessionalButton -/

namespace ProfessionalButton

/-- The method call `s.startsWith(start)`. -/
def startsWith (s start : String) : Bool :=
  s.toList.take start.length == start.toList

/-- The attribute `target={href.startsWith("http") ? "_blank" : "_self"}`. -/
def target (href : String) : String :=
  if startsWith href "http" then "_blank" else "_self"

/-- The attribute `rel={href.startsWith("http") ? "noopener noreferrer" : ""}`. -/
def rel (href : String) : String :=
  if startsWith href "http" then "noopener noreferrer" else ""

end ProfessionalButton

end App


/-! ## Theorems: ContactTerminal -/

namespace App.ContactTerminal

theorem handleSubmit_loading (s : State) : (handleSubmit s).loading = true := rfl

theorem handleSubmit_sent (s : State) : (handleSubmit s).sent = s.sent := rfl

theorem handleSubmit_form (s : State) : (handleSubmit s).form = s.form := rfl

theorem handleSubmit_timers (s : State) :
    (handleSubmit s).timers
      = s.timers ++ [{ id := s.nextId, due := s.now + 1500, cb := Callback.resolve }] := rfl

theorem pendingResolutions_handleSubmit (s : State) :
    pendingResolutions (handleSubmit s) = pendingResolutions s + 1 := by
  simp [pendingResolutions, handleSubmit_timers, List.filter_append]

theorem submitChecked_loading (typeMatches : String → Bool) (s : State)
    (h : s.loading = true) : submitChecked typeMatches s = s := by
  simp [submitChecked, h]

/-- C1: while a submission is pending (`loading = true`) a further submit is a no-op.
`handleSubmit` is invoked by the form's submit event only, and the submit button is
disabled by `loading`; so in every state with `loading = true` a submit request leaves
the whole state as it is: `loading`, `sent`, `form` and the pending timeouts, hence the
number of pending 1500 ms resolutions. Two submit requests in quick succession on a
form that passes the browser's validation, made in a state that is not loading, invoke
`handleSubmit` once: one resolution more is pending than before, exactly one when none
was. Whatever the state and the form, two requests add at most one. -/
theorem submit_while_loading (typeMatches : String → Bool) (s : State) :
    (s.loading = true →
      submitChecked typeMatches s = s ∧
      (submitChecked typeMatches s).loading = s.loading ∧
      (submitChecked typeMatches s).sent = s.sent ∧
      (submitChecked typeMatches s).form = s.form ∧
      (submitChecked typeMatches s).timers = s.timers ∧
      pendingResolutions (submitChecked typeMatches s) = pendingResolutions s) ∧
    (s.loading = false → s.mounted = true → formValid typeMatches s.form = true →
      submitChecked typeMatches s = handleSubmit s ∧
      (submitChecked typeMatches s).loading = true ∧
      submitChecked typeMatches (submitChecked typeMatches s) = submitChecked typeMatches s ∧
      pendingResolutions (submitChecked typeMatches (submitChecked typeMatches s))
        = pendingResolutions s + 1 ∧
      (pendingResolutions s = 0 →
        pendingResolutions (submitChecked typeMatches (submitChecked typeMatches s)) = 1)) ∧
    pendingResolutions (submitChecked typeMatches (submitChecked typeMatches s))
      ≤ pendingResolutions s + 1 := by
  have hvalid : s.loading = false → s.mounted = true → formValid typeMatches s.form = true →
      submitChecked typeMatches s = handleSubmit s := by
    intro hl hm hv
    simp [submitChecked, hl, hm, hv]
  have hsecond : submitChecked typeMatches (handleSubmit s) = handleSubmit s :=
    submitChecked_loading typeMatches (handleSubmit s) (handleSubmit_loading s)
  refine ⟨?_, ?_, ?_⟩
  · intro h
    have hs := submitChecked_loading typeMatches s h
    rw [hs]
    exact ⟨rfl, rfl, rfl, rfl, rfl, rfl⟩
  · intro hl hm hv
    have h1 := hvalid hl hm hv
    rw [h1, hsecond]
    refine ⟨rfl, rfl, rfl, pendingResolutions_handleSubmit s, ?_⟩
    intro h0
    rw [pendingResolutions_handleSubmit, h0]
  · by_cases hg : (s.mounted && !s.loading && formValid typeMatches s.form) = true
    · have h1 : submitChecked typeMatches s = handleSubmit s := by
        simp only [submitChecked, hg, if_true]
      rw [h1, hsecond, pendingResolutions_handleSubmit]
    · have h1 : submitChecked typeMatches s = s := by
        simp only [submitChecked, hg]
        rfl
      rw [h1, h1]
      omega

/-- Witness for `submit_while_loading`: a second submit while the first is pending, and
two submits in quick succession on a filled form. -/
theorem submit_while_loading_witness :
    (submitChecked validEmailAddress (run init (fill "A" "a@b.com" "hi"))).loading = true ∧
    submitChecked validEmailAddress
        (submitChecked validEmailAddress (run init (fill "A" "a@b.com" "hi")))
      = submitChecked validEmailAddress (run init (fill "A" "a@b.com" "hi")) ∧
    pendingResolutions (submitChecked validEmailAddress
        (submitChecked validEmailAddress (run init (fill "A" "a@b.com" "hi")))) = 1 :=
  ⟨((submit_while_loading validEmailAddress (run init (fill "A" "a@b.com" "hi"))).2.1 rfl rfl
      (by decide)).2.1,
   ((submit_while_loading validEmailAddress
      (submitChecked validEmailAddress (run init (fill "A" "a@b.com" "hi")))).1 (by decide)).1,
   ((submit_while_loading validEmailAddress (run init (fill "A" "a@b.com" "hi"))).2.1 rfl rfl
      (by decide)).2.2.2.2 (by decide)⟩

theorem nextTimer_none (ts : List Timer) (h : nextTimer ts = none) : ts = [] := by
  cases ts with
  | nil => rfl
  | cons t ts =>
    simp only [nextTimer] at h
    split at h
    · simp at h
    · split at h <;> simp at h

theorem nextTimer_some (ts : List Timer) :
    ∀ u, nextTimer ts = some u → u ∈ ts ∧ ∀ v ∈ ts, u.due ≤ v.due := by
  induction ts with
  | nil => intro u h; simp [nextTimer] at h
  | cons t ts ih =>
    intro u h
    simp only [nextTimer] at h
    split at h
    · next hn =>
      have hts := nextTimer_none ts hn
      subst hts
      simp only [Option.some.injEq] at h
      subst h
      simp
    · next w hw =>
      have hw2 := ih w hw
      split at h
      · next hlt =>
        simp only [Option.some.injEq] at h
        subst h
        refine ⟨List.mem_cons_of_mem _ hw2.1, ?_⟩
        intro v hv
        rcases List.mem_cons.mp hv with rfl | hv
        · omega
        · exact hw2.2 v hv
      · next hlt =>
        simp only [Option.some.injEq] at h
        subst h
        refine ⟨List.mem_cons_self _ _, ?_⟩
        intro v hv
        rcases List.mem_cons.mp hv with rfl | hv
        · exact Nat.le_refl _
        · have := hw2.2 v hv
          omega

theorem weight_append (a b : List Timer) : weight (a ++ b) = weight a + weight b := by
  induction a with
  | nil => simp [weight]
  | cons t a ih => simp [weight, ih, Nat.add_assoc]

theorem weight_pos_of_mem (ts : List Timer) (u : Timer) (h : u ∈ ts) : 0 < weight ts := by
  cases ts with
  | nil => simp at h
  | cons t ts =>
    simp only [weight]
    cases t.cb <;> simp

/-- Removing the timeouts with the handle of a pending timeout `u` lowers the weight by
at least the weight of `u`. -/
theorem weight_filter (ts : List Timer) (u : Timer) (h : u ∈ ts) :
    weight (ts.filter (fun v => v.id != u.id)) + weight [u] ≤ weight ts := by
  induction ts with
  | nil => simp at h
  | cons t ts ih =>
    have hle : ∀ l : List Timer, weight (l.filter (fun v => v.id != u.id)) ≤ weight l := by
      intro l
      induction l with
      | nil => simp [weight]
      | cons a l ihl =>
        simp only [List.filter]
        split
        · simp only [weight]; omega
        · simp only [weight]; omega
    rcases List.mem_cons.mp h with rfl | h2
    · have := hle ts
      simp only [List.filter, bne_self_eq_false, weight] at *
      omega
    · have := ih h2
      simp only [List.filter]
      split
      · simp only [weight] at *; omega
      · simp only [weight] at *; omega

/-- Every expiry lowers the weight of the timer table. -/
theorem weight_expire (s : State) (u : Timer) (h : nextTimer s.timers = some u) :
    weight (expire s).timers < weight s.timers := by
  have hmem := (nextTimer_some s.timers u h).1
  have hf := weight_filter s.timers u hmem
  simp only [expire, h]
  cases hcb : u.cb with
  | resolve =>
    simp only [runCallback, setTimeout, weight_append, weight] at *
    simp only [hcb] at hf
    omega
  | hideSent =>
    simp only [runCallback, weight] at *
    simp only [hcb] at hf
    omega

theorem runUntilAux_complete (t : Nat) :
    ∀ fuel s, weight s.timers ≤ fuel → ∀ v ∈ (runUntilAux t fuel s).timers, t < v.due := by
  intro fuel
  induction fuel with
  | zero =>
    intro s hw v hv
    simp only [runUntilAux] at hv
    have := weight_pos_of_mem s.timers v hv
    omega
  | succ fuel ih =>
    intro s hw v hv
    simp only [runUntilAux] at hv
    split at hv
    · next hn =>
      have := nextTimer_none s.timers hn
      simp only [this] at hv
      simp at hv
    · next u hu =>
      split at hv
      · have hlt := weight_expire s u hu
        exact ih (expire s) (by omega) v hv
      · next hdue =>
        have := (nextTimer_some s.timers u hu).2 v hv
        omega

/-- The bound on expiries built into `runUntil` is enough: in the state it returns no
pending timeout is due at or before `t`. -/
theorem runUntil_complete (t : Nat) (s : State) :
    ∀ v ∈ (runUntil t s).timers, t < v.due :=
  runUntilAux_complete t (weight s.timers) s (Nat.le_refl _)

/-- The timeline of one submission started in a state with no timeout pending: up to
1500 ms later nothing has run; from then until 4500 ms later the resolution has run and
its 3000 ms timeout is pending; afterwards both have run. -/
theorem runUntil_handleSubmit (s : State) (ht : s.timers = []) (t : Nat) :
    (t < s.now + 1500 →
      runUntil t (handleSubmit s) = { handleSubmit s with now := max s.now t }) ∧
    (s.now + 1500 ≤ t → t < s.now + 4500 →
      runUntil t (handleSubmit s)
        = { form := emptyForm, loading := false, sent := true, now := t,
            timers := [{ id := s.nextId + 1, due := s.now + 4500, cb := Callback.hideSent }],
            nextId := s.nextId + 2, mounted := s.mounted }) ∧
    (s.now + 4500 ≤ t →
      runUntil t (handleSubmit s)
        = { form := emptyForm, loading := false, sent := false, now := t,
            timers := [], nextId := s.nextId + 2, mounted := s.mounted }) := by
  obtain ⟨form, loading, sent, now, timers, nextId, mounted⟩ := s
  simp only at ht
  subst ht
  refine ⟨?_, ?_, ?_⟩
  · intro h
    simp only at h
    have h1 : ¬ (now + 1500 ≤ t) := by omega
    simp [runUntil, handleSubmit, setTimeout, weight, runUntilAux, nextTimer, h1]
  · intro h1 h2
    simp only at h1 h2
    have h3 : ¬ (now + 1500 + 3000 ≤ t) := by omega
    have h4 : max (now + 1500) t = t := by omega
    simp [runUntil, handleSubmit, setTimeout, weight, runUntilAux, nextTimer, h1, expire,
      runCallback, h3, h4]
  · intro h1
    simp only at h1
    have h2 : now + 1500 ≤ t := by omega
    have h3 : now + 1500 + 3000 ≤ t := by omega
    have h4 : max (now + 1500 + 3000) t = t := by omega
    simp [runUntil, handleSubmit, setTimeout, weight, runUntilAux, nextTimer, h2, expire,
      runCallback, h3, h4]

/-- C2: one `handleSubmit` in the Idle state with nothing pending and no further user
action gives the state sequence Idle, Submitting, Succeeded, Idle: the state is
Submitting from the call until 1500 ms later, Succeeded from then until 3000 ms after
that, and Idle with nothing pending from then on; the two timeouts expire at exactly
these two instants. -/
theorem submission_lifecycle (s : State) (hl : s.loading = false) (hs : s.sent = false)
    (ht : s.timers = []) :
    phase s = some SubmissionState.Idle ∧
    phase (handleSubmit s) = some SubmissionState.Submitting ∧
    (∀ t, t < s.now + 1500 →
      phase (runUntil t (handleSubmit s)) = some SubmissionState.Submitting) ∧
    (expire (handleSubmit s)).now = s.now + 1500 ∧
    phase (expire (handleSubmit s)) = some SubmissionState.Succeeded ∧
    (∀ t, s.now + 1500 ≤ t → t < s.now + 4500 →
      phase (runUntil t (handleSubmit s)) = some SubmissionState.Succeeded) ∧
    (expire (expire (handleSubmit s))).now = s.now + 4500 ∧
    phase (expire (expire (handleSubmit s))) = some SubmissionState.Idle ∧
    (expire (expire (handleSubmit s))).timers = [] ∧
    (∀ t, s.now + 4500 ≤ t →
      phase (runUntil t (handleSubmit s)) = some SubmissionState.Idle ∧
      (runUntil t (handleSubmit s)).timers = []) := by
  refine ⟨by simp [phase, hl, hs], by simp [phase, handleSubmit_loading, handleSubmit_sent, hs],
    ?_, ?_, ?_, ?_, ?_, ?_, ?_, ?_⟩
  · intro t h
    rw [((runUntil_handleSubmit s ht t).1 h)]
    simp [phase, handleSubmit, setTimeout, hs]
  · obtain ⟨form, loading, sent, now, timers, nextId, mounted⟩ := s
    simp only at ht
    subst ht
    simp [handleSubmit, setTimeout, expire, nextTimer, runCallback]
  · obtain ⟨form, loading, sent, now, timers, nextId, mounted⟩ := s
    simp only at ht
    subst ht
    simp [handleSubmit, setTimeout, expire, nextTimer, runCallback, phase]
  · intro t h1 h2
    rw [((runUntil_handleSubmit s ht t).2.1 h1 h2)]
    rfl
  · obtain ⟨form, loading, sent, now, timers, nextId, mounted⟩ := s
    simp only at ht
    subst ht
    simp [handleSubmit, setTimeout, expire, nextTimer, runCallback]
  · obtain ⟨form, loading, sent, now, timers, nextId, mounted⟩ := s
    simp only at ht
    subst ht
    simp [handleSubmit, setTimeout, expire, nextTimer, runCallback, phase]
  · obtain ⟨form, loading, sent, now, timers, nextId, mounted⟩ := s
    simp only at ht
    subst ht
    simp [handleSubmit, setTimeout, expire, nextTimer, runCallback]
  · intro t h1
    rw [((runUntil_handleSubmit s ht t).2.2 h1)]
    exact ⟨rfl, rfl⟩

/-- Witness for `submission_lifecycle`: the filled form of a fresh mount. -/
theorem submission_lifecycle_witness :
    phase (runUntil 1499 (handleSubmit (run init (fill "A" "a@b.com" "hi"))))
      = some SubmissionState.Submitting ∧
    phase (runUntil 1500 (handleSubmit (run init (fill "A" "a@b.com" "hi"))))
      = some SubmissionState.Succeeded ∧
    phase (runUntil 4499 (handleSubmit (run init (fill "A" "a@b.com" "hi"))))
      = some SubmissionState.Succeeded ∧
    phase (runUntil 4500 (handleSubmit (run init (fill "A" "a@b.com" "hi"))))
      = some SubmissionState.Idle :=
  ⟨(submission_lifecycle (run init (fill "A" "a@b.com" "hi")) rfl rfl rfl).2.2.1 1499
      (by decide),
   (submission_lifecycle (run init (fill "A" "a@b.com" "hi")) rfl rfl rfl).2.2.2.2.2.1 1500
      (by decide) (by decide),
   (submission_lifecycle (run init (fill "A" "a@b.com" "hi")) rfl rfl rfl).2.2.2.2.2.1 4499
      (by decide) (by decide),
   ((submission_lifecycle (run init (fill "A" "a@b.com" "hi")) rfl rfl rfl).2.2.2.2.2.2.2.2.2
      4500 (by decide)).1⟩

/-- C3: the form is cleared exactly at the Submitting to Succeeded transition.
`handleSubmit` leaves `form` as it is while setting `loading`; the 1500 ms closure sets
`loading = false`, `sent = true` and `form` to the empty form; the 3000 ms closure leaves
`form` as it is. On the timeline of a submission started with nothing pending the
entered values are present at every instant before the 1500 ms expiry and gone at every
instant from it on. -/
theorem form_cleared_at_resolution (s : State) :
    ((handleSubmit s).form = s.form ∧ (handleSubmit s).loading = true) ∧
    ((runCallback Callback.resolve s).loading = false ∧
      (runCallback Callback.resolve s).sent = true ∧
      (runCallback Callback.resolve s).form = emptyForm) ∧
    ((runCallback Callback.hideSent s).form = s.form ∧
      (runCallback Callback.hideSent s).sent = false) ∧
    (s.timers = [] →
      (∀ t, t < s.now + 1500 →
        (runUntil t (handleSubmit s)).form = s.form ∧
        (runUntil t (handleSubmit s)).loading = true) ∧
      (∀ t, s.now + 1500 ≤ t →
        (runUntil t (handleSubmit s)).form = emptyForm ∧
        (runUntil t (handleSubmit s)).loading = false)) := by
  refine ⟨⟨rfl, rfl⟩, ⟨rfl, rfl, rfl⟩, ⟨rfl, rfl⟩, ?_⟩
  intro ht
  constructor
  · intro t h
    rw [((runUntil_handleSubmit s ht t).1 h)]
    exact ⟨rfl, rfl⟩
  · intro t h
    by_cases h2 : t < s.now + 4500
    · rw [((runUntil_handleSubmit s ht t).2.1 h h2)]
      exact ⟨rfl, rfl⟩
    · rw [((runUntil_handleSubmit s ht t).2.2 (by omega))]
      exact ⟨rfl, rfl⟩

/-- Witness for `form_cleared_at_resolution`: the values entered are still there 1499 ms
after the submit and gone 1500 ms after it. -/
theorem form_cleared_at_resolution_witness :
    (runUntil 1499 (handleSubmit (run init (fill "A" "a@b.com" "hi")))).form
      = { name := "A", email := "a@b.com", message := "hi" } ∧
    (runUntil 1500 (handleSubmit (run init (fill "A" "a@b.com" "hi")))).form = emptyForm :=
  ⟨(((form_cleared_at_resolution (run init (fill "A" "a@b.com" "hi"))).2.2.2 rfl).1 1499
      (by decide)).1,
   (((form_cleared_at_resolution (run init (fill "A" "a@b.com" "hi"))).2.2.2 rfl).2 1500
      (by decide)).1⟩

/-- C4 (as stated, refuted): a submit made through the form while the success message of
the previous submission is still showing (the button is enabled, since `loading` is
false) leads to a state with `loading` and `sent` both true, which is none of Idle,
Submitting, Succeeded. -/
theorem loading_and_sent_both_true :
    phase (run init (fill "A" "a@b.com" "hi" ++ [Event.submit, Event.expire]))
      = some SubmissionState.Succeeded ∧
    (run init (fill "A" "a@b.com" "hi" ++ [Event.submit, Event.expire] ++
      fill "A" "a@b.com" "again" ++ [Event.submit])).loading = true ∧
    (run init (fill "A" "a@b.com" "hi" ++ [Event.submit, Event.expire] ++
      fill "A" "a@b.com" "again" ++ [Event.submit])).sent = true ∧
    phase (run init (fill "A" "a@b.com" "hi" ++ [Event.submit, Event.expire] ++
      fill "A" "a@b.com" "again" ++ [Event.submit])) = none := by
  decide

theorem lifecycle_flags (s : State) (h : Lifecycle s) :
    ¬ (s.loading = true ∧ s.sent = true) := by
  rcases h with ⟨h1, h2, _⟩ | ⟨h1, h2, _⟩ | ⟨h1, h2, _⟩ <;> simp [h1, h2]

/-- One event from a `Lifecycle` state, a submit only when Idle: the next state is a
`Lifecycle` state again, and the phase either stays or moves along one of the three
lifecycle transitions. -/
theorem lifecycle_step (s : State) (e : Event) (h : Lifecycle s)
    (hsub : e = Event.submit → phase s = some SubmissionState.Idle) :
    Lifecycle (step s e) ∧
    (phase (step s e) = phase s ∨
      ∃ p q, phase s = some p ∧ phase (step s e) = some q ∧ (p, q) ∈ lifecycleTransitions) := by
  obtain ⟨form, loading, sent, now, timers, nextId, mounted⟩ := s
  cases e with
  | edit f v =>
    have hp : phase (step ⟨form, loading, sent, now, timers, nextId, mounted⟩ (Event.edit f v))
        = phase ⟨form, loading, sent, now, timers, nextId, mounted⟩ := by
      cases f <;> cases mounted <;> simp [step, onChange, phase]
    refine ⟨?_, Or.inl hp⟩
    cases f <;> cases mounted <;> simpa [step, onChange, Lifecycle] using h
  | pass dt =>
    have hp : phase (step ⟨form, loading, sent, now, timers, nextId, mounted⟩ (Event.pass dt))
        = phase ⟨form, loading, sent, now, timers, nextId, mounted⟩ := by
      simp only [step, pass]
      split <;> simp [phase]
    refine ⟨?_, Or.inl hp⟩
    simp only [step, pass]
    split
    · simpa [Lifecycle] using h
    · exact h
  | unmount =>
    refine ⟨by simpa [step, unmount, Lifecycle] using h, Or.inl ?_⟩
    simp [step, unmount, phase]
  | submit =>
    have hidle := hsub rfl
    have hl : loading = false := by
      cases loading <;> cases sent <;> simp_all [phase]
    have hs : sent = false := by
      cases loading <;> cases sent <;> simp_all [phase]
    subst hl hs
    have ht : timers = [] := by
      rcases h with ⟨_, _, h3⟩ | ⟨h1, _, _⟩ | ⟨_, h2, _⟩
      · exact h3
      · simp at h1
      · simp at h2
    subst ht
    by_cases hg : (mounted && requiredFilled form) = true
    · have hstep : step ⟨form, false, false, now, [], nextId, mounted⟩ Event.submit
          = handleSubmit ⟨form, false, false, now, [], nextId, mounted⟩ := by
        simp only [step, submitRequest]
        simp at hg
        simp [hg]
      rw [hstep]
      refine ⟨Or.inr (Or.inl ⟨rfl, rfl, nextId, now + 1500, rfl⟩), Or.inr ?_⟩
      exact ⟨SubmissionState.Idle, SubmissionState.Submitting, rfl, rfl, by decide⟩
    · have hstep : step ⟨form, false, false, now, [], nextId, mounted⟩ Event.submit
          = ⟨form, false, false, now, [], nextId, mounted⟩ := by
        simp only [step, submitRequest]
        simp at hg
        cases mounted <;> simp_all
      rw [hstep]
      exact ⟨h, Or.inl rfl⟩
  | expire =>
    rcases h with ⟨h1, h2, h3⟩ | ⟨h1, h2, i, d, h3⟩ | ⟨h1, h2, i, d, h3⟩
    · simp only at h1 h2 h3
      subst h1 h2 h3
      refine ⟨Or.inl ⟨rfl, rfl, rfl⟩, Or.inl rfl⟩
    · simp only at h1 h2 h3
      subst h1 h2 h3
      refine ⟨Or.inr (Or.inr ⟨rfl, rfl, nextId, max now d + 3000, ?_⟩), Or.inr ?_⟩
      · simp [step, expire, nextTimer, runCallback, setTimeout]
      · exact ⟨SubmissionState.Submitting, SubmissionState.Succeeded, rfl, rfl, by decide⟩
    · simp only at h1 h2 h3
      subst h1 h2 h3
      refine ⟨Or.inl ⟨rfl, rfl, ?_⟩, Or.inr ?_⟩
      · simp [step, expire, nextTimer, runCallback]
      · exact ⟨SubmissionState.Succeeded, SubmissionState.Idle, rfl, rfl, by decide⟩

theorem lifecycle_run (es : List Event) :
    ∀ s, Lifecycle s → submitsWhenIdle s es = true → Lifecycle (run s es) := by
  induction es with
  | nil => intro s h _; exact h
  | cons e es ih =>
    intro s h hsub
    simp only [submitsWhenIdle, Bool.and_eq_true, Bool.or_eq_true] at hsub
    have hstep := lifecycle_step s e h (by
      intro he
      rcases hsub.1 with h1 | h1
      · simp [he] at h1
      · simpa using h1)
    exact ih (step s e) hstep.1 hsub.2

theorem submitsWhenIdle_append (es : List Event) :
    ∀ s e, submitsWhenIdle s (es ++ [e]) = true →
      submitsWhenIdle s es = true ∧
      (e = Event.submit → phase (run s es) = some SubmissionState.Idle) := by
  induction es with
  | nil =>
    intro s e h
    simp only [List.nil_append, submitsWhenIdle, Bool.and_eq_true, Bool.or_eq_true] at h
    refine ⟨rfl, ?_⟩
    intro he
    rcases h.1 with h1 | h1
    · simp [he] at h1
    · simpa [run] using h1
  | cons a es ih =>
    intro s e h
    simp only [List.cons_append, submitsWhenIdle, Bool.and_eq_true] at h
    have := ih (step s a) e h.2
    exact ⟨by simp only [submitsWhenIdle, Bool.and_eq_true]; exact ⟨h.1, this.1⟩, this.2⟩

/-- C4 (amended): in every state reached from the initial state by edits, submit
requests made only in the Idle state, timer expiries, passing time and unmount,
`loading` and `sent` are never both true, and every further such event either keeps the
submission state or takes one of the transitions Idle to Submitting, Submitting to
Succeeded, Succeeded to Idle. -/
theorem lifecycle_invariant (es : List Event) (h : submitsWhenIdle init es = true) :
    ¬ ((run init es).loading = true ∧ (run init es).sent = true) ∧
    (∃ p, phase (run init es) = some p) ∧
    ∀ e, submitsWhenIdle init (es ++ [e]) = true →
      phase (run init (es ++ [e])) = phase (run init es) ∨
      ∃ p q, phase (run init es) = some p ∧ phase (run init (es ++ [e])) = some q ∧
        (p, q) ∈ lifecycleTransitions := by
  have hinit : Lifecycle init := Or.inl ⟨rfl, rfl, rfl⟩
  have hL := lifecycle_run es init hinit h
  refine ⟨lifecycle_flags _ hL, ?_, ?_⟩
  · rcases hL with ⟨h1, h2, _⟩ | ⟨h1, h2, _⟩ | ⟨h1, h2, _⟩ <;> simp [phase, h1, h2]
  · intro e he
    have hrun : run init (es ++ [e]) = step (run init es) e := by
      simp [run, List.foldl_append]
    rw [hrun]
    exact (lifecycle_step (run init es) e hL (submitsWhenIdle_append es init e he).2).2

/-- Witness for `lifecycle_invariant`: fill, submit, resolution, end of the success
display; the last event takes the transition Succeeded to Idle. -/
theorem lifecycle_invariant_witness :
    ¬ ((run init (fill "A" "a@b.com" "hi" ++ [Event.submit, Event.expire])).loading = true ∧
       (run init (fill "A" "a@b.com" "hi" ++ [Event.submit, Event.expire])).sent = true) ∧
    phase (run init (fill "A" "a@b.com" "hi" ++ [Event.submit, Event.expire]))
      = some SubmissionState.Succeeded ∧
    phase (run init (fill "A" "a@b.com" "hi" ++ [Event.submit, Event.expire] ++ [Event.expire]))
      = some SubmissionState.Idle :=
  ⟨(lifecycle_invariant (fill "A" "a@b.com" "hi" ++ [Event.submit, Event.expire])
      (by decide)).1, by decide, by decide⟩

/-- C5 (the code at the failing input): a submission is started, the component is
unmounted 700 ms later, and the 1500 ms timeout is still pending after the unmount; when
it expires its closure runs, writes `loading`, `sent` and `form`, and schedules the
3000 ms timeout. Unmounting never removes a timeout, whatever the state. -/
theorem unmount_leaves_timers_pending :
    (run init (fill "A" "a@b.com" "hi" ++ [Event.submit, Event.pass 700, Event.unmount])).mounted
      = false ∧
    (run init (fill "A" "a@b.com" "hi" ++ [Event.submit, Event.pass 700, Event.unmount])).timers
      = [{ id := 0, due := 1500, cb := Callback.resolve }] ∧
    run init (fill "A" "a@b.com" "hi" ++
        [Event.submit, Event.pass 700, Event.unmount, Event.expire])
      = { form := emptyForm, loading := false, sent := true, now := 1500,
          timers := [{ id := 1, due := 4500, cb := Callback.hideSent }],
          nextId := 2, mounted := false } ∧
    (run init (fill "A" "a@b.com" "hi" ++
        [Event.submit, Event.pass 700, Event.unmount, Event.expire, Event.expire])).timers
      = [] ∧
    ∀ s : State, (unmount s).timers = s.timers := by
  refine ⟨by decide, by decide, by decide, by decide, fun _ => rfl⟩

end App.ContactTerminal

/-! ## Theorems: TypewriterText -/

namespace App.TypewriterText

/-- Appending `text[i]` to the first `i` code units gives the first `i + 1`, when `i`
is in range. -/
theorem take_append_charAt (text : JSString) (i : Nat) (h : i < text.length) :
    text.take i ++ charAt text i = text.take (i + 1) := by
  rw [List.take_succ, charAt, List.get?_eq_getElem?, List.getElem?_eq_getElem h]
  rfl

/-- The state before the last character is reached: `n` ticks have revealed `n` code
units and the tick for index `n` is pending. -/
theorem ticks_mount_lt (text : JSString) (n : Nat) (h : n < text.length) :
    ticks n (mount text)
      = { text := text, displayText := text.take n, currentIndex := n,
          timers := [{ id := n, text := text, index := n }], cleanup := some n,
          nextId := n + 1, mounted := true } := by
  induction n with
  | zero => simp [ticks, mount, effect, h]
  | succ n ih =>
    have hn : n < text.length := by omega
    rw [ticks, ih hn]
    simp [tick, callback, rerender, runCleanup, clearTimeout, effect, h,
      take_append_charAt text n hn]

/-- The terminal state: all code units revealed, nothing pending, no cleanup. -/
theorem ticks_mount_length (text : JSString) :
    ticks text.length (mount text)
      = { text := text, displayText := text, currentIndex := text.length,
          timers := [], cleanup := none, nextId := text.length, mounted := true } := by
  cases hlen : text.length with
  | zero =>
    have : text = [] := List.length_eq_zero.mp hlen
    subst this
    simp [ticks, mount, effect]
  | succ m =>
    have hm : m < text.length := by omega
    rw [ticks, ticks_mount_lt text m hm]
    have h1 : ¬ (m + 1 < text.length) := by omega
    have h2 : List.take (m + 1) text = text := List.take_of_length_le (by omega)
    simp [tick, callback, rerender, runCleanup, clearTimeout, effect, h1,
      take_append_charAt text m hm, h2]

/-- Ticks after the terminal state change nothing. -/
theorem ticks_mount_ge (text : JSString) (n : Nat) (h : text.length ≤ n) :
    ticks n (mount text) = ticks text.length (mount text) := by
  induction n with
  | zero =>
    have : text.length = 0 := by omega
    rw [this]
  | succ n ih =>
    by_cases hn : text.length ≤ n
    · rw [ticks, ih hn, ticks_mount_length]
      rfl
    · have : text.length = n + 1 := by omega
      rw [this]

/-- C6: after `n` ticks from a fresh mount the displayed text is the first
`min n text.length` code units of `text` and `currentIndex` is `min n text.length`; on
the text DevOps the display is Dev after 3 ticks and DevOps after 6. -/
theorem ticks_display (text : JSString) (n : Nat) :
    (ticks n (mount text)).displayText = text.take (min n text.length) ∧
    (ticks n (mount text)).currentIndex = min n text.length ∧
    (ticks 3 (mount (utf16 "DevOps"))).displayText = utf16 "Dev" ∧
    (ticks 6 (mount (utf16 "DevOps"))).displayText = utf16 "DevOps" := by
  refine ⟨?_, ?_, by decide, by decide⟩
  · by_cases h : n < text.length
    · rw [ticks_mount_lt text n h, Nat.min_eq_left (by omega)]
    · rw [ticks_mount_ge text n (by omega), ticks_mount_length, Nat.min_eq_right (by omega),
        List.take_length]
  · by_cases h : n < text.length
    · rw [ticks_mount_lt text n h, Nat.min_eq_left (by omega)]
    · rw [ticks_mount_ge text n (by omega), ticks_mount_length, Nat.min_eq_right (by omega)]

/-- C7: for every text and every number of ticks, `currentIndex` stays between 0 and
`text.length`, a tick taken while `currentIndex < text.length` raises it by exactly 1,
and no tick lowers it. -/
theorem currentIndex_bounds (text : JSString) (n : Nat) :
    0 ≤ (ticks n (mount text)).currentIndex ∧
    (ticks n (mount text)).currentIndex ≤ text.length ∧
    ((ticks n (mount text)).currentIndex < text.length →
      (tick (ticks n (mount text))).currentIndex = (ticks n (mount text)).currentIndex + 1) ∧
    (ticks n (mount text)).currentIndex ≤ (tick (ticks n (mount text))).currentIndex := by
  have hsucc : tick (ticks n (mount text)) = ticks (n + 1) (mount text) := rfl
  have hidx : ∀ k, (ticks k (mount text)).currentIndex = min k text.length := by
    intro k
    by_cases h : k < text.length
    · rw [ticks_mount_lt text k h, Nat.min_eq_left (by omega)]
    · rw [ticks_mount_ge text k (by omega), ticks_mount_length, Nat.min_eq_right (by omega)]
  rw [hsucc, hidx n, hidx (n + 1)]
  refine ⟨Nat.zero_le _, by omega, ?_, by omega⟩
  intro h
  omega

/-- Witness for `currentIndex_bounds`: the fourth tick on DevOps. -/
theorem currentIndex_bounds_witness :
    (ticks 3 (mount (utf16 "DevOps"))).currentIndex < (utf16 "DevOps").length ∧
    (tick (ticks 3 (mount (utf16 "DevOps")))).currentIndex
      = (ticks 3 (mount (utf16 "DevOps"))).currentIndex + 1 :=
  ⟨by decide, (currentIndex_bounds (utf16 "DevOps") 3).2.2.1 (by decide)⟩

/-- C8: the typewriter terminates. After exactly `text.length` ticks `currentIndex` is
`text.length` (and it is smaller after fewer ticks); in that state no timeout is pending
and the effect has returned no cleanup; every later tick leaves the whole state, so
`displayText` and `currentIndex`, unchanged (on DevOps the 7th tick is a no-op); as many
timeouts were created as there are code units, and for the empty text none ever is. -/
theorem typewriter_terminates (text : JSString) :
    (ticks text.length (mount text)).currentIndex = text.length ∧
    (∀ n, n < text.length → (ticks n (mount text)).currentIndex < text.length) ∧
    (ticks text.length (mount text)).timers = [] ∧
    (ticks text.length (mount text)).cleanup = none ∧
    (ticks text.length (mount text)).nextId = text.length ∧
    tick (ticks text.length (mount text)) = ticks text.length (mount text) ∧
    (∀ n, text.length ≤ n → ticks n (mount text) = ticks text.length (mount text)) ∧
    ticks 7 (mount (utf16 "DevOps")) = ticks 6 (mount (utf16 "DevOps")) ∧
    (∀ n, (ticks n (mount [])).timers = [] ∧ (ticks n (mount [])).nextId = 0) := by
  refine ⟨?_, ?_, ?_, ?_, ?_, ?_, ?_, by decide, ?_⟩
  · rw [ticks_mount_length]
  · intro n h
    rw [ticks_mount_lt text n h]
    exact h
  · rw [ticks_mount_length]
  · rw [ticks_mount_length]
  · rw [ticks_mount_length]
  · rw [ticks_mount_length]
    rfl
  · intro n h
    exact ticks_mount_ge text n h
  · intro n
    have := ticks_mount_ge [] n (Nat.zero_le _)
    rw [this]
    exact ⟨rfl, rfl⟩

/-- Witness for `typewriter_terminates`: DevOps, three ticks in and ten ticks in. -/
theorem typewriter_terminates_witness :
    (ticks 3 (mount (utf16 "DevOps"))).currentIndex < 6 ∧
    ticks 10 (mount (utf16 "DevOps")) = ticks 6 (mount (utf16 "DevOps")) :=
  ⟨(typewriter_terminates (utf16 "DevOps")).2.1 3 (by decide),
   (typewriter_terminates (utf16 "DevOps")).2.2.2.2.2.2.1 10 (by decide)⟩

/-- Under the discipline the cleanup empties the timer table. -/
theorem runCleanup_timers (s : State) (h : Disciplined s) : (runCleanup s).timers = [] := by
  obtain ⟨text, displayText, currentIndex, timers, cleanup, nextId, mounted⟩ := s
  obtain ⟨h1, h2, _⟩ := h
  match timers, h1, h2 with
  | [], _, _ => cases cleanup <;> simp [runCleanup, clearTimeout]
  | [t], _, h2 =>
    have hc : cleanup = some t.id := h2 t (by simp)
    subst hc
    simp [runCleanup, clearTimeout]
  | _ :: _ :: _, h1, _ => simp at h1

/-- The effect run on an empty timer table of a mounted instance gives a disciplined
state. -/
theorem effect_disciplined (s : State) (ht : s.timers = []) (hm : s.mounted = true) :
    Disciplined (effect s) := by
  obtain ⟨text, displayText, currentIndex, timers, cleanup, nextId, mounted⟩ := s
  simp only at ht hm
  subst ht hm
  by_cases h : currentIndex < text.length <;> simp [effect, h, Disciplined]

theorem runCleanup_mounted (s : State) : (runCleanup s).mounted = s.mounted := by
  obtain ⟨text, displayText, currentIndex, timers, cleanup, nextId, mounted⟩ := s
  cases cleanup <;> rfl

theorem runCleanup_display (s : State) :
    (runCleanup s).displayText = s.displayText ∧ (runCleanup s).currentIndex = s.currentIndex := by
  obtain ⟨text, displayText, currentIndex, timers, cleanup, nextId, mounted⟩ := s
  cases cleanup <;> exact ⟨rfl, rfl⟩

theorem runCleanup_cleanup (s : State) : (runCleanup s).cleanup = none := by
  obtain ⟨text, displayText, currentIndex, timers, cleanup, nextId, mounted⟩ := s
  cases cleanup <;> rfl

theorem mount_disciplined (text : JSString) : Disciplined (mount text) :=
  effect_disciplined _ rfl rfl

theorem step_disciplined (s : State) (e : Event) (h : Disciplined s) :
    Disciplined (step s e) := by
  cases e with
  | unmount =>
    have ht := runCleanup_timers s h
    simp only [step, unmount]
    exact ⟨by simp [ht], by simp [ht], fun _ => ht⟩
  | setText text =>
    simp only [step, setText]
    split
    · next hc =>
      simp only [Bool.and_eq_true] at hc
      apply effect_disciplined
      · exact runCleanup_timers _ ⟨h.1, h.2.1, h.2.2⟩
      · rw [runCleanup_mounted]
        exact hc.1
    · exact h
  | tick =>
    obtain ⟨text, displayText, currentIndex, timers, cleanup, nextId, mounted⟩ := s
    obtain ⟨h1, h2, h3⟩ := h
    match timers, h1, h2, h3 with
    | [], h1, h2, h3 => exact ⟨h1, h2, h3⟩
    | [t], _, _, h3 =>
      have hm : mounted = true := by
        cases mounted
        · simp at h3
        · rfl
      subst hm
      simp only [step, tick, callback, rerender]
      simp only [if_true]
      apply effect_disciplined
      · apply runCleanup_timers
        exact ⟨by simp, by simp, by simp⟩
      · rw [runCleanup_mounted]
    | _ :: _ :: _, h1, _, _ => simp at h1

theorem run_disciplined (es : List Event) :
    ∀ s, Disciplined s → Disciplined (run s es) := by
  induction es with
  | nil => intro s h; exact h
  | cons e es ih => intro s h; exact ih (step s e) (step_disciplined s e h)

/-- An unmounted instance with nothing pending and no cleanup never changes again. -/
theorem run_disposed (es : List Event) (s : State) (ht : s.timers = [])
    (hc : s.cleanup = none) (hm : s.mounted = false) : run s es = s := by
  induction es with
  | nil => rfl
  | cons e es ih =>
    have hstep : step s e = s := by
      obtain ⟨text, displayText, currentIndex, timers, cleanup, nextId, mounted⟩ := s
      simp only at ht hc hm
      subst ht hc hm
      cases e <;> simp [step, tick, setText, unmount, runCleanup]
    simp only [run, List.foldl_cons, hstep]
    exact ih

/-- C9: the typewriter never leaks a tick. In every state reached from a fresh mount by
ticks, changes of the `text` prop and unmount at most one tick is pending and it is the one the current cleanup
clears; unmounting leaves no tick pending and keeps `displayText` and `currentIndex`,
and nothing that happens afterwards changes the state; every effect run that schedules
a timeout returns the cleanup clearing that very timeout. -/
theorem no_tick_leak (text : JSString) (es : List Event) :
    (run (mount text) es).timers.length ≤ 1 ∧
    (∀ t ∈ (run (mount text) es).timers, (run (mount text) es).cleanup = some t.id) ∧
    (unmount (run (mount text) es)).timers = [] ∧
    (unmount (run (mount text) es)).displayText = (run (mount text) es).displayText ∧
    (unmount (run (mount text) es)).currentIndex = (run (mount text) es).currentIndex ∧
    (∀ es2, run (unmount (run (mount text) es)) es2 = unmount (run (mount text) es)) ∧
    (∀ s : State, s.currentIndex < s.text.length →
      (effect s).timers
        = s.timers ++ [{ id := s.nextId, text := s.text, index := s.currentIndex }] ∧
      (effect s).cleanup = some s.nextId ∧
      (runCleanup (effect s)).timers = s.timers.filter (fun t => t.id != s.nextId)) := by
  have hD := run_disciplined es (mount text) (mount_disciplined text)
  have ht : (unmount (run (mount text) es)).timers = [] := runCleanup_timers _ hD
  refine ⟨hD.1, hD.2.1, ht, (runCleanup_display _).1, (runCleanup_display _).2, ?_, ?_⟩
  · intro es2
    exact run_disposed es2 _ ht (runCleanup_cleanup _) rfl
  · intro s h
    obtain ⟨text, displayText, currentIndex, timers, cleanup, nextId, mounted⟩ := s
    simp only at h
    simp [effect, h, runCleanup, clearTimeout, List.filter_append]

/-- Witness for `no_tick_leak`: the first effect run of an instance showing DevOps
schedules timeout 0 and returns the cleanup that clears timeout 0. -/
theorem no_tick_leak_witness :
    (0 : Nat) < (utf16 "DevOps").length ∧
    (effect { text := utf16 "DevOps", displayText := [], currentIndex := 0, timers := [],
              cleanup := none, nextId := 0, mounted := true }).cleanup = some 0 ∧
    (runCleanup (effect { text := utf16 "DevOps", displayText := [], currentIndex := 0,
                          timers := [], cleanup := none, nextId := 0,
                          mounted := true })).timers = [] :=
  ⟨by decide,
   ((no_tick_leak [] []).2.2.2.2.2.2
      { text := utf16 "DevOps", displayText := [], currentIndex := 0, timers := [],
        cleanup := none, nextId := 0, mounted := true } (by decide)).2.1,
   ((no_tick_leak [] []).2.2.2.2.2.2
      { text := utf16 "DevOps", displayText := [], currentIndex := 0, timers := [],
        cleanup := none, nextId := 0, mounted := true } (by decide)).2.2⟩

end App.TypewriterText

/-! ## Theorems: width tests -/

namespace App.Responsive

/-- C10 (the code at the failing input): at width 768 the resize handlers do not set
the mobile flag, as the classification says (768 is tablet), but the injected style
sheet applies its mobile block and not its tablet block, so the style rules treat 768 as
mobile. One pixel below and one above, the handlers and the style sheet agree with each
other and with the classification. -/
theorem width_768_is_mobile_for_styles :
    (isMobile 768 = false ∧ specDeviceClass 768 = DeviceClass.Tablet) ∧
    (mobileMedia 768 = true ∧ tabletMedia 768 = false ∧
      styleDeviceClass 768 = DeviceClass.Mobile) ∧
    (isMobile 767 = true ∧ mobileMedia 767 = true ∧
      styleDeviceClass 767 = specDeviceClass 767) ∧
    (isMobile 769 = false ∧ mobileMedia 769 = false ∧ tabletMedia 769 = true ∧
      styleDeviceClass 769 = specDeviceClass 769) := by
  decide

end App.Responsive

/-! ## Theorems: window listeners, mobile flags, pointer position -/

namespace App.Viewport

theorem mountAll_listeners (w : Nat) : (mountAll w).listeners = mountedListeners := by
  simp [mountAll, components, mountComponent, mountEffect, runOp, setIsMobile,
    addEventListener, blank, mountedListeners]

theorem mountAll_innerWidth (w : Nat) : (mountAll w).innerWidth = w := rfl

theorem mountAll_isMobile (w : Nat) (c : Component) (h : holdsIsMobile c = true) :
    (mountAll w).isMobile c = Responsive.isMobile w := by
  cases c <;> first | rfl | simp [holdsIsMobile] at h

/-- A resize delivered to the mounted page: the width changes, the listener list stays,
every component with a resize handler gets its flag recomputed, and the flag of
`CursorTracker` and the pointer position stay as they were. -/
theorem dispatch_resize (p : Page) (h : p.listeners = mountedListeners) (w : Nat) :
    (dispatch p (Signal.resize w)).listeners = mountedListeners ∧
    (dispatch p (Signal.resize w)).innerWidth = w ∧
    (∀ c, subscribesResize c = true →
      (dispatch p (Signal.resize w)).isMobile c = Responsive.isMobile w) ∧
    (dispatch p (Signal.resize w)).isMobile Component.CursorTracker
      = p.isMobile Component.CursorTracker ∧
    (dispatch p (Signal.resize w)).mousePosition = p.mousePosition := by
  obtain ⟨iw, f, mp, ls⟩ := p
  simp only at h
  subst h
  refine ⟨rfl, rfl, ?_, rfl, rfl⟩
  intro c hc
  cases c <;> first | rfl | simp [subscribesResize, mountEffect] at hc

/-- A mouse move delivered to the mounted page: only the pointer position changes. -/
theorem dispatch_mousemove (p : Page) (h : p.listeners = mountedListeners) (e : MouseEvent) :
    (dispatch p (Signal.mousemove e)).listeners = mountedListeners ∧
    (dispatch p (Signal.mousemove e)).innerWidth = p.innerWidth ∧
    (dispatch p (Signal.mousemove e)).isMobile = p.isMobile ∧
    (dispatch p (Signal.mousemove e)).mousePosition = { x := e.clientX, y := e.clientY } := by
  obtain ⟨iw, f, mp, ls⟩ := p
  simp only at h
  subst h
  exact ⟨rfl, rfl, rfl, rfl⟩

theorem signals_listeners (sigs : List Signal) :
    ∀ p : Page, p.listeners = mountedListeners → (signals p sigs).listeners = mountedListeners := by
  induction sigs with
  | nil => intro p h; exact h
  | cons sig sigs ih =>
    intro p h
    apply ih
    cases sig with
    | resize w => exact (dispatch_resize p h w).1
    | mousemove e => exact (dispatch_mousemove p h e).1

theorem signals_append (p : Page) (a b : List Signal) :
    signals p (a ++ b) = signals (signals p a) b := by
  simp [signals, List.foldl_append]

/-- After any sequence of resize events on the mounted page the window has the last
width, every component with a resize handler has its flag equal to the test on that
width, and the flag of `CursorTracker` is still the one sampled at mount. -/
theorem resizes_recompute (ws : List Nat) :
    ∀ p : Page, p.listeners = mountedListeners →
      (∀ c, subscribesResize c = true → p.isMobile c = Responsive.isMobile p.innerWidth) →
      (signals p (ws.map Signal.resize)).innerWidth = lastWidth p.innerWidth ws ∧
      (∀ c, subscribesResize c = true →
        (signals p (ws.map Signal.resize)).isMobile c
          = Responsive.isMobile (lastWidth p.innerWidth ws)) ∧
      (signals p (ws.map Signal.resize)).isMobile Component.CursorTracker
        = p.isMobile Component.CursorTracker := by
  induction ws with
  | nil => intro p _ hf; exact ⟨rfl, hf, rfl⟩
  | cons w ws ih =>
    intro p h _
    have hd := dispatch_resize p h w
    have := ih (dispatch p (Signal.resize w)) hd.1 (by
      intro c hc
      rw [hd.2.2.1 c hc, hd.2.1])
    simp only [List.map_cons, signals, List.foldl_cons] at this ⊢
    rw [hd.2.1] at this
    refine ⟨this.1, this.2.1, ?_⟩
    rw [this.2.2, hd.2.2.2.1]

/-- C11 (the code at the failing input): the page is mounted at width 1024 and the
window is resized to 500. The window width is now below 768 and the flags of the nine
components with a resize handler are true, but the flag of `CursorTracker`, whose effect
registers no resize handler, is still false. Mounted at 500 and resized to 1024 it is
still true. -/
theorem cursorTracker_flag_is_stale :
    (signals (mountAll 1024) [Signal.resize 500]).innerWidth = 500 ∧
    Responsive.isMobile 500 = true ∧
    (signals (mountAll 1024) [Signal.resize 500]).isMobile Component.CursorTracker = false ∧
    (signals (mountAll 1024) [Signal.resize 500]).isMobile Component.Navbar = true ∧
    (signals (mountAll 1024) [Signal.resize 500]).isMobile Component.ContactTerminal = true ∧
    (signals (mountAll 500) [Signal.resize 1024]).isMobile Component.CursorTracker = true ∧
    (signals (mountAll 500) [Signal.resize 1024]).isMobile Component.Footer = false ∧
    subscribesResize Component.CursorTracker = false ∧
    (components.filter (fun c => holdsIsMobile c && !subscribesResize c))
      = [Component.CursorTracker] := by
  decide

/-- C12: on initialization the window width is sampled once. For every initial width
`w` and every component holding the flag, once the page (or the component alone) is
mounted and no resize has happened the flag is true exactly when `w < 768`;
`ContactTerminal` and `Footer` get the value from the `useState` initial value and their
effect does not write it, the other components start from `false` and their mount effect
writes it once. -/
theorem mount_samples_width (w : Nat) (c : Component) (h : holdsIsMobile c = true) :
    (mountAll w).isMobile c = decide (w < 768) ∧
    ((mountAll w).isMobile c = true ↔ w < 768) ∧
    (mountComponent c (blank w)).isMobile c = decide (w < 768) ∧
    ((mountComponent c (blank w)).isMobile c = true ↔ w < 768) ∧
    ((c = Component.ContactTerminal ∨ c = Component.Footer) →
      useStateIsMobile c w = decide (w < 768) ∧ (mountEffect c).count Op.setIsMobile = 0) ∧
    (¬ (c = Component.ContactTerminal ∨ c = Component.Footer) →
      useStateIsMobile c w = false ∧ (mountEffect c).count Op.setIsMobile = 1) := by
  have hall : (mountAll w).isMobile c = decide (w < 768) := mountAll_isMobile w c h
  have hone : (mountComponent c (blank w)).isMobile c = decide (w < 768) := by
    cases c <;> first | rfl | simp [holdsIsMobile] at h
  refine ⟨hall, by rw [hall]; exact decide_eq_true_iff, hone,
    by rw [hone]; exact decide_eq_true_iff, ?_, ?_⟩
  · intro hc
    rcases hc with rfl | rfl <;> exact ⟨rfl, by decide⟩
  · intro hc
    cases c <;> first
      | exact ⟨rfl, by decide⟩
      | exact absurd (Or.inl rfl) hc
      | exact absurd (Or.inr rfl) hc
      | exact absurd h (by decide)

/-- Witness for `mount_samples_width`: `SkillsConstellation` mounted at width 500 has the
flag set, and mounted at width 768 it has not. -/
theorem mount_samples_width_witness :
    holdsIsMobile Component.SkillsConstellation = true ∧
    (mountAll 500).isMobile Component.SkillsConstellation = true ∧
    (mountAll 768).isMobile Component.SkillsConstellation = false :=
  ⟨by decide,
   ((mount_samples_width 500 Component.SkillsConstellation (by decide)).2.1).mpr (by decide),
   (mount_samples_width 768 Component.SkillsConstellation (by decide)).1⟩

theorem removeEventListener_append_self (l : Listener) (ls : List Listener) (h : l ∉ ls) :
    removeEventListener l (ls ++ [l]) = ls := by
  have hf : ls.filter (fun k => k != l) = ls := by
    apply List.filter_eq_self.mpr
    intro k hk
    have : k ≠ l := fun hkl => h (hkl ▸ hk)
    simpa using this
  simp [removeEventListener, List.filter_append, hf]

theorem removeEventListener_add (l : Listener) (ls : List Listener) (h : l ∉ ls) :
    removeEventListener l (addEventListener l ls) = ls := by
  simp only [addEventListener, h, if_false]
  exact removeEventListener_append_self l ls h

theorem removeEventListener_add_two (a b : Listener) (ls : List Listener) (ha : a ∉ ls)
    (hb : b ∉ ls) (hab : a ≠ b) :
    removeEventListener b
      (removeEventListener a (addEventListener b (addEventListener a ls))) = ls := by
  have hb2 : b ∉ ls ++ [a] := by
    simp only [List.mem_append, List.mem_singleton]
    rintro (hm | hm)
    · exact hb hm
    · exact hab hm.symm
  have hf : ls.filter (fun k => k != a) = ls := by
    apply List.filter_eq_self.mpr
    intro k hk
    have : k ≠ a := fun hka => ha (hka ▸ hk)
    simpa using this
  have hba : (b != a) = true := by simpa using Ne.symm hab
  have h1 : removeEventListener a (ls ++ [a] ++ [b]) = ls ++ [b] := by
    simp [removeEventListener, List.filter_append, hf, hba]
  simp only [addEventListener, ha, hb2, if_false, h1]
  exact removeEventListener_append_self b ls hb

/-- C13: every window subscription is released on teardown. For each component the
listeners its mount effect adds are exactly the ones its cleanup removes, same type and
same handler, in the same order; and mounting then unmounting the component leaves the
window's listener list as it was before the mount (the handlers being closures created
by that mount, none of them is in the list beforehand). -/
theorem listeners_released (c : Component) (p : Page)
    (h : ∀ l ∈ p.listeners, l.owner ≠ c) :
    subscriptions c = releases c ∧
    (unmountComponent c (mountComponent c p)).listeners = p.listeners := by
  refine ⟨by cases c <;> rfl, ?_⟩
  obtain ⟨iw, f, mp, ls⟩ := p
  simp only at h
  have hn : ∀ ev hd, ({ event := ev, owner := c, handler := hd } : Listener) ∉ ls := by
    intro ev hd hmem
    exact h _ hmem rfl
  cases c
  case CursorTracker => rfl
  case Navbar =>
    simp only [unmountComponent, mountComponent, mountEffect, cleanup, List.foldl_cons,
      List.foldl_nil, runOp, setIsMobile]
    exact removeEventListener_add_two _ _ ls (hn _ _) (hn _ _) (by decide)
  all_goals
    simp only [unmountComponent, mountComponent, mountEffect, cleanup, List.foldl_cons,
      List.foldl_nil, runOp, setIsMobile]
    exact removeEventListener_add _ ls (hn _ _)

/-- Witness for `listeners_released`: `Navbar` mounted on a page that already holds the
mouse listener of `App`. -/
theorem listeners_released_witness :
    (∀ l ∈ (mountComponent Component.App (blank 1024)).listeners, l.owner ≠ Component.Navbar) ∧
    (unmountComponent Component.Navbar
        (mountComponent Component.Navbar (mountComponent Component.App (blank 1024)))).listeners
      = (mountComponent Component.App (blank 1024)).listeners :=
  ⟨by decide,
   (listeners_released Component.Navbar (mountComponent Component.App (blank 1024))
      (by decide)).2⟩

/-- C14: the pointer position follows the last mouse move. It is `{ x: 0, y: 0 }` on the
freshly mounted page, and after any sequence of signals ending in a mouse move it is the
`clientX`, `clientY` of that move, whatever came before. -/
theorem pointer_follows_last_move (w : Nat) :
    (mountAll w).mousePosition = { x := 0, y := 0 } ∧
    (∀ (es : List MouseEvent) (e : MouseEvent),
      (signals (mountAll w) ((es ++ [e]).map Signal.mousemove)).mousePosition
        = { x := e.clientX, y := e.clientY }) ∧
    (∀ (sigs : List Signal) (e : MouseEvent),
      (signals (mountAll w) (sigs ++ [Signal.mousemove e])).mousePosition
        = { x := e.clientX, y := e.clientY }) := by
  have key : ∀ (sigs : List Signal) (e : MouseEvent),
      (signals (mountAll w) (sigs ++ [Signal.mousemove e])).mousePosition
        = { x := e.clientX, y := e.clientY } := by
    intro sigs e
    rw [signals_append]
    have hl := signals_listeners sigs (mountAll w) (mountAll_listeners w)
    exact (dispatch_mousemove _ hl e).2.2.2
  refine ⟨rfl, ?_, key⟩
  intro es e
  rw [List.map_append]
  exact key (es.map Signal.mousemove) e

end App.Viewport

/-! ## Theorems: HeroSection -/

namespace App.HeroSection

theorem clamp01_bounds (x : ℚ) : 0 ≤ clamp01 x ∧ clamp01 x ≤ 1 := by
  unfold clamp01
  exact ⟨le_max_left _ _, max_le (by norm_num) (min_le_left _ _)⟩

theorem clamp01_of_nonpos (x : ℚ) (h : x ≤ 0) : clamp01 x = 0 := by
  unfold clamp01
  exact max_eq_left (le_trans (min_le_right _ _) h)

theorem clamp01_of_one_le (x : ℚ) (h : 1 ≤ x) : clamp01 x = 1 := by
  unfold clamp01
  rw [min_eq_left h]
  exact max_eq_right (by norm_num)

/-- C15: the scroll progress of a region `[startOffset, endOffset]` is always defined
and lies in `[0, 1]`; for a region of positive height it is
`clamp((currentScroll − startOffset) / (endOffset − startOffset), 0, 1)`; it is 0 at
every position before the region and 1 at every position after it; and for a zero-height
region it is 0 or 1, no division taking place. The hero section's progress is the one of
the region `[top, top + height]`. -/
theorem scrollProgress_clamped (startOffset endOffset currentScroll : ℚ)
    (h : startOffset ≤ endOffset) :
    (∃ p, scrollProgress startOffset endOffset currentScroll = some p ∧
      0 ≤ p ∧ p ≤ 1 ∧
      (startOffset < endOffset →
        p = clamp01 ((currentScroll - startOffset) / (endOffset - startOffset))) ∧
      (currentScroll < startOffset → p = 0) ∧
      (endOffset < currentScroll → p = 1) ∧
      (startOffset = endOffset → p = 0 ∨ p = 1)) ∧
    scrollYProgress startOffset (endOffset - startOffset) currentScroll
      = scrollProgress startOffset endOffset currentScroll := by
  constructor
  · by_cases he : endOffset = startOffset
    · subst he
      by_cases hs : currentScroll < endOffset
      · refine ⟨0, by simp [scrollProgress, hs], le_refl _, by norm_num, ?_, ?_, ?_, ?_⟩
        · intro hlt; exact absurd hlt (lt_irrefl _)
        · intro _; rfl
        · intro hgt; exact absurd (lt_trans hs hgt) (lt_irrefl _)
        · intro _; exact Or.inl rfl
      · refine ⟨1, by simp [scrollProgress, hs], by norm_num, le_refl _, ?_, ?_, ?_, ?_⟩
        · intro hlt; exact absurd hlt (lt_irrefl _)
        · intro hlt; exact absurd hlt hs
        · intro _; rfl
        · intro _; exact Or.inr rfl
    · have hlt : startOffset < endOffset := lt_of_le_of_ne h (Ne.symm he)
      have hpos : 0 < endOffset - startOffset := by linarith
      have hne : endOffset - startOffset ≠ 0 := ne_of_gt hpos
      refine ⟨clamp01 ((currentScroll - startOffset) / (endOffset - startOffset)),
        by simp [scrollProgress, he, divide, hne], (clamp01_bounds _).1, (clamp01_bounds _).2,
        fun _ => rfl, ?_, ?_, ?_⟩
      · intro hs
        apply clamp01_of_nonpos
        exact div_nonpos_of_nonpos_of_nonneg (by linarith) (le_of_lt hpos)
      · intro hs
        apply clamp01_of_one_le
        rw [le_div_iff₀ hpos]
        linarith
      · intro heq
        exact absurd heq.symm he
  · simp [scrollYProgress]

/-- Witness for `scrollProgress_clamped`: a section of height 800 at the top of the
document, scrolled by 200. -/
theorem scrollProgress_clamped_witness :
    (0 : ℚ) ≤ 800 ∧
    (∃ p, scrollProgress 0 800 200 = some p ∧ 0 ≤ p ∧ p ≤ 1) ∧
    scrollYProgress 0 (800 - 0) 200 = scrollProgress 0 800 200 := by
  obtain ⟨⟨p, hp, h0, h1, _⟩, hy⟩ := scrollProgress_clamped 0 800 200 (by norm_num)
  exact ⟨by norm_num, ⟨p, hp, h0, h1⟩, hy⟩

/-- C16: for every progress `p` in `[0, 1]` the background translation is `50 × p`
percent and the text translation is `50 × p` percent when `isMobile` and `100 × p`
percent otherwise; so the background moves by at most 50 percent, and the text by at
most 50 percent on mobile and 100 percent elsewhere. -/
theorem parallax_ranges (p : ℚ) (h0 : 0 ≤ p) (h1 : p ≤ 1) :
    backgroundY p = 50 * p ∧
    textY true p = 50 * p ∧
    textY false p = 100 * p ∧
    (0 ≤ backgroundY p ∧ backgroundY p ≤ 50) ∧
    (0 ≤ textY true p ∧ textY true p ≤ 50) ∧
    (0 ≤ textY false p ∧ textY false p ≤ 100) := by
  have hb : backgroundY p = 50 * p := by
    simp only [backgroundY, useTransform]
    ring
  have ht : textY true p = 50 * p := by
    simp only [textY, useTransform, if_true]
    ring
  have hf : textY false p = 100 * p := by
    simp only [textY, useTransform]
    simp only [Bool.false_eq_true, if_false]
    ring
  rw [hb, ht, hf]
  refine ⟨rfl, rfl, rfl, ⟨by linarith, by linarith⟩, ⟨by linarith, by linarith⟩,
    ⟨by linarith, by linarith⟩⟩

/-- Witness for `parallax_ranges`: half way through the hero section. -/
theorem parallax_ranges_witness :
    (0 : ℚ) ≤ 1 / 2 ∧ (1 / 2 : ℚ) ≤ 1 ∧
    backgroundY (1 / 2) = 50 * (1 / 2) ∧ textY false (1 / 2) = 100 * (1 / 2) :=
  ⟨by norm_num, by norm_num,
   (parallax_ranges (1 / 2) (by norm_num) (by norm_num)).1,
   (parallax_ranges (1 / 2) (by norm_num) (by norm_num)).2.2.1⟩

end App.HeroSection

/-! ## Theorems: reveal on visibility and staggered delays -/

namespace App.Reveal

open App.Viewport (Component)

/-- With `once`, the flag never goes back to false and the notification count is 1
exactly when the flag is set, 0 before. -/
theorem useInView_once_step (s : InView) (b : Bool)
    (hn : s.notified = if s.inView then 1 else 0) :
    (s.inView = true → (useInView true s b).inView = true) ∧
    (useInView true s b).notified = if (useInView true s b).inView then 1 else 0 := by
  obtain ⟨v, n⟩ := s
  cases v <;> cases b <;> simp_all [useInView]

theorem foldl_useInView_once (sigs : List Bool) :
    ∀ s : InView, (s.notified = if s.inView then 1 else 0) →
      (s.inView = true → (sigs.foldl (useInView true) s).inView = true) ∧
      (sigs.foldl (useInView true) s).notified
        = if (sigs.foldl (useInView true) s).inView then 1 else 0 := by
  induction sigs with
  | nil => intro s hn; exact ⟨fun h => h, hn⟩
  | cons b sigs ih =>
    intro s hn
    have hstep := useInView_once_step s b hn
    have := ih (useInView true s b) hstep.2
    exact ⟨fun h => this.1 (hstep.1 h), this.2⟩

/-- C17: the visibility flag of every tracked section is a one-shot latch. Each section
that calls `useInView` passes `{ once: true }`; so for every sequence of intersection
signals, once `inView` has been true it is true after every later signal of the mount,
also after signals reporting that the section left the viewport, and the flag has gone
from false to true at most once. -/
theorem inView_latches (c : Component) (once : Bool) (h : inViewOnce c = some once)
    (sigs later : List Bool) :
    once = true ∧
    ((intersections once sigs).inView = true →
      (intersections once (sigs ++ later)).inView = true) ∧
    (intersections once (sigs ++ later)).notified ≤ 1 ∧
    ((intersections once sigs).inView = true → (intersections once sigs).notified = 1) := by
  have ho : once = true := by
    cases c <;> simp [inViewOnce] at h <;> exact h
  subst ho
  have h1 := foldl_useInView_once sigs InView.init rfl
  have h2 := foldl_useInView_once later (intersections true sigs) h1.2
  have h3 := foldl_useInView_once (sigs ++ later) InView.init rfl
  refine ⟨rfl, ?_, ?_, ?_⟩
  · intro hv
    simp only [intersections, List.foldl_append]
    exact h2.1 hv
  · simp only [intersections]
    rw [h3.2]
    split <;> simp
  · intro hv
    simp only [intersections] at hv ⊢
    rw [h1.2, hv]
    rfl

/-- Witness for `inView_latches`: the skills section enters the viewport, leaves it and
enters it again. -/
theorem inView_latches_witness :
    inViewOnce Component.SkillsConstellation = some true ∧
    (intersections true [false, true]).inView = true ∧
    (intersections true ([false, true] ++ [false, true, false])).inView = true ∧
    (intersections true ([false, true] ++ [false, true, false])).notified ≤ 1 :=
  ⟨rfl, by decide,
   (inView_latches Component.SkillsConstellation true rfl [false, true]
      [false, true, false]).2.1 (by decide),
   (inView_latches Component.SkillsConstellation true rfl [false, true]
      [false, true, false]).2.2.1⟩

/-- C18 (as stated, refuted): the navbar links and the hero particles, nodes and lines
have their animation target whatever the value of a visibility flag; `Navbar` and
`HeroSection` do not call `useInView` at all. -/
theorem nav_and_hero_not_gated :
    inViewOnce Component.Navbar = none ∧
    inViewOnce Component.HeroSection = none ∧
    animate StaggeredList.navDesktop false 1 = [("opacity", [1]), ("y", [0])] ∧
    animate StaggeredList.navMobile false 1 ≠ [] ∧
    animate StaggeredList.heroParticles false 1 ≠ [] ∧
    animate StaggeredList.heroNodes false 1 ≠ [] ∧
    animate StaggeredList.heroLines false 1 ≠ [] := by
  refine ⟨rfl, rfl, rfl, ?_, ?_, ?_, ?_⟩ <;> simp [animate]

/-- C18 (amended): in the sections that track visibility (skills, experience,
education, achievements, certifications, extra-curricular, projects) every staggered
item has the empty animation target while `inView` is false and a non-empty one when
`inView` is true; the items of `Navbar` and `HeroSection`, which have no visibility flag,
have the same non-empty target throughout. -/
theorem staggered_items_gated (l : StaggeredList) (opacity : ℚ) :
    ((inViewOnce l.owner).isSome = true →
      animate l false opacity = [] ∧ animate l true opacity ≠ []) ∧
    (inViewOnce l.owner = none →
      (l.owner = Component.Navbar ∨ l.owner = Component.HeroSection) ∧
      animate l false opacity = animate l true opacity ∧ animate l true opacity ≠ []) := by
  cases l <;> simp [StaggeredList.owner, inViewOnce, animate]

/-- Witness for `staggered_items_gated`: the skill cards and the navbar links. -/
theorem staggered_items_gated_witness :
    (inViewOnce StaggeredList.skillCards.owner).isSome = true ∧
    animate StaggeredList.skillCards false 1 = [] ∧
    inViewOnce StaggeredList.navDesktop.owner = none ∧
    animate StaggeredList.navDesktop false 1 = animate StaggeredList.navDesktop true 1 :=
  ⟨rfl, ((staggered_items_gated StaggeredList.skillCards 1).1 rfl).1, rfl,
   ((staggered_items_gated StaggeredList.navDesktop 1).2 rfl).2.1⟩

/-- C19: for every index `i` the delay of item `i` is `baseDelay + i × staggerInterval`
with the constants of its list: navbar links (0, 0.1), skill cards (0, 0.05) and bars
(0.5, 0.05), experience cards (0, 0.3) and dots (0.5, 0.3), education cards (0, 0.15) and
bars (0.5, 0.2), achievements (0.5, 0.2), certifications (0.7, 0.1), extra-curricular
(0.9, 0.1), project cards (0, 0.1) and bars (0.3, 0.1); the hero lists have base 0 and
stagger 0.05 or 0.1 (particles, mobile or not), 0.2 (nodes), 0.3 (lines). -/
theorem delay_formula (isMobile : Bool) (i : Nat) :
    delay StaggeredList.navDesktop isMobile i = 0 + i * 0.1 ∧
    delay StaggeredList.navMobile isMobile i = 0 + i * 0.1 ∧
    delay StaggeredList.skillCards isMobile i = 0 + i * 0.05 ∧
    delay StaggeredList.skillBars isMobile i = 0.5 + i * 0.05 ∧
    delay StaggeredList.experienceCards isMobile i = 0 + i * 0.3 ∧
    delay StaggeredList.experienceDots isMobile i = 0.5 + i * 0.3 ∧
    delay StaggeredList.educationCards isMobile i = 0 + i * 0.15 ∧
    delay StaggeredList.educationBars isMobile i = 0.5 + i * 0.2 ∧
    delay StaggeredList.achievements isMobile i = 0.5 + i * 0.2 ∧
    delay StaggeredList.certifications isMobile i = 0.7 + i * 0.1 ∧
    delay StaggeredList.extraCurricular isMobile i = 0.9 + i * 0.1 ∧
    delay StaggeredList.projectCards isMobile i = 0 + i * 0.1 ∧
    delay StaggeredList.projectBars isMobile i = 0.3 + i * 0.1 ∧
    delay StaggeredList.heroParticles true i = 0 + i * 0.05 ∧
    delay StaggeredList.heroParticles false i = 0 + i * 0.1 ∧
    delay StaggeredList.heroNodes isMobile i = 0 + i * 0.2 ∧
    delay StaggeredList.heroLines isMobile i = 0 + i * 0.3 := by
  refine ⟨?_, ?_, ?_, ?_, ?_, ?_, ?_, ?_, ?_, ?_, ?_, ?_, ?_, ?_, ?_, ?_, ?_⟩ <;>
    simp only [delay, if_true, Bool.false_eq_true, if_false] <;> ring

/-- C20: items are revealed in index order. In every staggered list, for all indices
`i < j` the delay of item `j` is at least the delay of item `i`. -/
theorem delay_monotone (l : StaggeredList) (isMobile : Bool) (i j : Nat) (h : i < j) :
    delay l isMobile i ≤ delay l isMobile j := by
  have hq : (i : ℚ) ≤ (j : ℚ) := by exact_mod_cast le_of_lt h
  cases l <;> cases isMobile <;>
    simp only [delay, if_true, Bool.false_eq_true, if_false] <;> linarith

/-- Witness for `delay_monotone`: the second and the fifth education bar. -/
theorem delay_monotone_witness :
    1 < 4 ∧
    delay StaggeredList.educationBars false 1 ≤ delay StaggeredList.educationBars false 4 :=
  ⟨by decide, delay_monotone StaggeredList.educationBars false 1 4 (by decide)⟩

end App.Reveal

/-! ## Theorems: ContactTerminal, validation and overlapping submissions -/

namespace App.ContactTerminal

theorem requiredFilled_iff (f : Form) :
    requiredFilled f = true ↔ f.name ≠ "" ∧ f.email ≠ "" ∧ f.message ≠ "" := by
  simp [requiredFilled, and_assoc]

/-- Leaving out the test of the e-mail input gives back `submitRequest`. -/
theorem submitChecked_true (s : State) : submitChecked (fun _ => true) s = submitRequest s := by
  simp [submitChecked, submitRequest, formValid]

/-- C22: the submission lifecycle is entered only with all required fields non-empty.
A submit request through the form with one of `name`, `email`, `message` empty leaves
the state as it is, so an Idle state stays Idle; and whenever a submit request takes an
Idle state to Submitting, all three fields are non-empty. This holds with and without
the browser's further test of the e-mail input. -/
theorem submit_needs_required_fields (typeMatches : String → Bool) (s : State) :
    ((s.form.name = "" ∨ s.form.email = "" ∨ s.form.message = "") →
      submitRequest s = s ∧ submitChecked typeMatches s = s) ∧
    (phase s = some SubmissionState.Idle →
      phase (submitRequest s) = some SubmissionState.Submitting →
      s.form.name ≠ "" ∧ s.form.email ≠ "" ∧ s.form.message ≠ "") ∧
    (phase s = some SubmissionState.Idle →
      phase (submitChecked typeMatches s) = some SubmissionState.Submitting →
      s.form.name ≠ "" ∧ s.form.email ≠ "" ∧ s.form.message ≠ "") := by
  refine ⟨?_, ?_, ?_⟩
  · intro h
    have hr : requiredFilled s.form = false := by
      cases hrf : requiredFilled s.form with
      | false => rfl
      | true =>
        have := (requiredFilled_iff s.form).mp hrf
        rcases h with h | h | h
        · exact absurd h this.1
        · exact absurd h this.2.1
        · exact absurd h this.2.2
    simp [submitRequest, submitChecked, formValid, hr]
  · intro hi hs
    cases hrf : requiredFilled s.form with
    | true => exact (requiredFilled_iff s.form).mp hrf
    | false =>
      have : submitRequest s = s := by simp [submitRequest, hrf]
      rw [this, hi] at hs
      simp at hs
  · intro hi hs
    cases hrf : requiredFilled s.form with
    | true => exact (requiredFilled_iff s.form).mp hrf
    | false =>
      have : submitChecked typeMatches s = s := by simp [submitChecked, formValid, hrf]
      rw [this, hi] at hs
      simp at hs

/-- Witness for `submit_needs_required_fields`: a submit with the message left empty,
and one with all three fields filled. -/
theorem submit_needs_required_fields_witness :
    submitRequest (run init (edits [(Field.name, "A"), (Field.email, "a@b.com")]))
      = run init (edits [(Field.name, "A"), (Field.email, "a@b.com")]) ∧
    (run init (fill "A" "a@b.com" "hi")).form.message ≠ "" :=
  ⟨((submit_needs_required_fields validEmailAddress
      (run init (edits [(Field.name, "A"), (Field.email, "a@b.com")]))).1
      (Or.inr (Or.inr rfl))).1,
   ((submit_needs_required_fields validEmailAddress (run init (fill "A" "a@b.com" "hi"))).2.1
      (by decide) (by decide)).2.2⟩

/-- C23 (as stated, refuted): the e-mail input is of `type="email"`. With name and
message filled and the non-empty e-mail value `not-an-email`, which is not a valid
e-mail address, the submit request through the form is not accepted: the state stays
as it is, Idle. -/
theorem malformed_email_not_submitted :
    requiredFilled (run init (fill "A" "not-an-email" "hi")).form = true ∧
    validEmailAddress "not-an-email" = false ∧
    submitChecked validEmailAddress (run init (fill "A" "not-an-email" "hi"))
      = run init (fill "A" "not-an-email" "hi") ∧
    phase (submitChecked validEmailAddress (run init (fill "A" "not-an-email" "hi")))
      = some SubmissionState.Idle ∧
    phase (submitChecked validEmailAddress (run init (fill "A" "a@b.com" "hi")))
      = some SubmissionState.Submitting := by
  decide

/-- C23 (amended): `handleSubmit` itself checks nothing, neither presence nor format:
whatever the form holds it sets `loading`. A submit request through the form, made
while mounted and not loading with name and message non-empty, is accepted and starts
the submission exactly when the e-mail value is non-empty and passes the browser's test
for inputs of `type="email"`; otherwise the state is left as it is. -/
theorem submit_checks_email_type (typeMatches : String → Bool) (s : State)
    (hm : s.mounted = true) (hl : s.loading = false)
    (hn : s.form.name ≠ "") (hmsg : s.form.message ≠ "") :
    (handleSubmit s).loading = true ∧
    ((s.form.email ≠ "" ∧ typeMatches s.form.email = true) →
      submitChecked typeMatches s = handleSubmit s ∧
      (submitChecked typeMatches s).loading = true) ∧
    (¬ (s.form.email ≠ "" ∧ typeMatches s.form.email = true) →
      submitChecked typeMatches s = s ∧ (submitChecked typeMatches s).loading = false) := by
  refine ⟨rfl, ?_, ?_⟩
  · intro he
    have hr : requiredFilled s.form = true := (requiredFilled_iff s.form).mpr ⟨hn, he.1, hmsg⟩
    have : submitChecked typeMatches s = handleSubmit s := by
      simp [submitChecked, formValid, hm, hl, hr, he.2]
    rw [this]
    exact ⟨rfl, rfl⟩
  · intro he
    have hv : formValid typeMatches s.form = false := by
      cases hf : formValid typeMatches s.form with
      | false => rfl
      | true =>
        simp only [formValid, Bool.and_eq_true] at hf
        exact absurd ⟨((requiredFilled_iff s.form).mp hf.1).2.1, hf.2⟩ he
    have : submitChecked typeMatches s = s := by simp [submitChecked, hv]
    rw [this]
    exact ⟨rfl, hl⟩

/-- Witness for `submit_checks_email_type`: the value `a@b.com` is accepted. -/
theorem submit_checks_email_type_witness :
    (run init (fill "A" "a@b.com" "hi")).form.email ≠ "" ∧
    validEmailAddress (run init (fill "A" "a@b.com" "hi")).form.email = true ∧
    (submitChecked validEmailAddress (run init (fill "A" "a@b.com" "hi"))).loading = true :=
  ⟨by decide, by decide,
   ((submit_checks_email_type validEmailAddress (run init (fill "A" "a@b.com" "hi")) rfl rfl
      (by decide) (by decide)).2.1 ⟨by decide, by decide⟩).2⟩

/-- C24 (the code at the failing input): a first submission resolves at 1500 ms and its
3000 ms timeout is due at 4500; a second submit is made at 2900, while the success
message is showing, and resolves at 4400 with `sent` true; at 4500, 100 ms later, the
timeout of the first submission resets `sent`. A third submit made in the Idle state at
4600 resolves at 6100, and the timeout of the second submission resets `sent` at 7400,
after 1300 ms. -/
theorem stale_timeout_cuts_success_display :
    (run init (fill "A" "a@b.com" "hi" ++ [Event.submit, Event.expire, Event.pass 1400] ++
        fill "B" "a@b.com" "again" ++ [Event.submit, Event.expire])).now = 4400 ∧
    (run init (fill "A" "a@b.com" "hi" ++ [Event.submit, Event.expire, Event.pass 1400] ++
        fill "B" "a@b.com" "again" ++ [Event.submit, Event.expire])).sent = true ∧
    (run init (fill "A" "a@b.com" "hi" ++ [Event.submit, Event.expire, Event.pass 1400] ++
        fill "B" "a@b.com" "again" ++ [Event.submit, Event.expire])).loading = false ∧
    (run init (fill "A" "a@b.com" "hi" ++ [Event.submit, Event.expire, Event.pass 1400] ++
        fill "B" "a@b.com" "again" ++ [Event.submit, Event.expire, Event.expire])).now = 4500 ∧
    (run init (fill "A" "a@b.com" "hi" ++ [Event.submit, Event.expire, Event.pass 1400] ++
        fill "B" "a@b.com" "again" ++ [Event.submit, Event.expire, Event.expire])).sent = false ∧
    phase (run init (fill "A" "a@b.com" "hi" ++ [Event.submit, Event.expire, Event.pass 1400] ++
        fill "B" "a@b.com" "again" ++ [Event.submit, Event.expire, Event.expire,
          Event.pass 100] ++ fill "C" "a@b.com" "third" ++ [Event.submit]))
      = some SubmissionState.Submitting ∧
    (run init (fill "A" "a@b.com" "hi" ++ [Event.submit, Event.expire, Event.pass 1400] ++
        fill "B" "a@b.com" "again" ++ [Event.submit, Event.expire, Event.expire,
          Event.pass 100] ++ fill "C" "a@b.com" "third" ++ [Event.submit, Event.expire])).now
      = 6100 ∧
    phase (run init (fill "A" "a@b.com" "hi" ++ [Event.submit, Event.expire, Event.pass 1400] ++
        fill "B" "a@b.com" "again" ++ [Event.submit, Event.expire, Event.expire,
          Event.pass 100] ++ fill "C" "a@b.com" "third" ++ [Event.submit, Event.expire]))
      = some SubmissionState.Succeeded ∧
    (run init (fill "A" "a@b.com" "hi" ++ [Event.submit, Event.expire, Event.pass 1400] ++
        fill "B" "a@b.com" "again" ++ [Event.submit, Event.expire, Event.expire,
          Event.pass 100] ++ fill "C" "a@b.com" "third" ++
          [Event.submit, Event.expire, Event.expire])).now = 7400 ∧
    (run init (fill "A" "a@b.com" "hi" ++ [Event.submit, Event.expire, Event.pass 1400] ++
        fill "B" "a@b.com" "again" ++ [Event.submit, Event.expire, Event.expire,
          Event.pass 100] ++ fill "C" "a@b.com" "third" ++
          [Event.submit, Event.expire, Event.expire])).sent = false := by
  decide

theorem run_edits_timers (es : List (Field × String)) :
    ∀ s : State, (run s (edits es)).timers = s.timers ∧ (run s (edits es)).now = s.now ∧
      (run s (edits es)).loading = s.loading ∧ (run s (edits es)).sent = s.sent ∧
      (run s (edits es)).nextId = s.nextId ∧ (run s (edits es)).mounted = s.mounted := by
  induction es with
  | nil => intro s; exact ⟨rfl, rfl, rfl, rfl, rfl, rfl⟩
  | cons e es ih =>
    intro s
    obtain ⟨f, v⟩ := e
    have h := ih (step s (Event.edit f v))
    have hs : (step s (Event.edit f v)).timers = s.timers ∧
        (step s (Event.edit f v)).now = s.now ∧
        (step s (Event.edit f v)).loading = s.loading ∧
        (step s (Event.edit f v)).sent = s.sent ∧
        (step s (Event.edit f v)).nextId = s.nextId ∧
        (step s (Event.edit f v)).mounted = s.mounted := by
      simp only [step]
      split
      · cases f <;> exact ⟨rfl, rfl, rfl, rfl, rfl, rfl⟩
      · exact ⟨rfl, rfl, rfl, rfl, rfl, rfl⟩
    simp only [edits, List.map_cons, run, List.foldl_cons] at h ⊢
    rw [h.1, h.2.1, h.2.2.1, h.2.2.2.1, h.2.2.2.2.1, h.2.2.2.2.2]
    exact hs

/-- C26: field edits made while a submission is pending are discarded. Each `onChange`
writes its own field and leaves the other two; the 1500 ms closure sets `form` to the
empty form whatever it held; so for a submission started with nothing else pending and
any sequence of edits made before the expiry, the form after the expiry is the empty
form and the state is Succeeded. -/
theorem pending_edits_discarded (s : State) (es : List (Field × String)) :
    (∀ v, (onChange Field.name v s).form = { s.form with name := v } ∧
      (onChange Field.email v s).form = { s.form with email := v } ∧
      (onChange Field.message v s).form = { s.form with message := v }) ∧
    (runCallback Callback.resolve (run (handleSubmit s) (edits es))).form = emptyForm ∧
    (s.timers = [] →
      (expire (run (handleSubmit s) (edits es))).form = emptyForm ∧
      (expire (run (handleSubmit s) (edits es))).now = s.now + 1500 ∧
      (expire (run (handleSubmit s) (edits es))).loading = false ∧
      (expire (run (handleSubmit s) (edits es))).sent = true) := by
  refine ⟨fun v => ⟨rfl, rfl, rfl⟩, rfl, ?_⟩
  intro ht
  have h := run_edits_timers es (handleSubmit s)
  have htm : (run (handleSubmit s) (edits es)).timers
      = [{ id := s.nextId, due := s.now + 1500, cb := Callback.resolve }] := by
    rw [h.1, handleSubmit_timers, ht]
    rfl
  have hnow : (run (handleSubmit s) (edits es)).now = s.now := h.2.1
  simp only [expire, htm, nextTimer]
  refine ⟨rfl, ?_, rfl, rfl⟩
  simp only [runCallback, setTimeout, hnow]
  omega

/-- Witness for `pending_edits_discarded`: a message retyped while the submission is
pending is there before the expiry and gone after it. -/
theorem pending_edits_discarded_witness :
    (run (handleSubmit (run init (fill "A" "a@b.com" "hi")))
        (edits [(Field.message, "one more thing")])).form.message = "one more thing" ∧
    (expire (run (handleSubmit (run init (fill "A" "a@b.com" "hi")))
        (edits [(Field.message, "one more thing")]))).form = emptyForm :=
  ⟨by decide,
   ((pending_edits_discarded (run init (fill "A" "a@b.com" "hi"))
      [(Field.message, "one more thing")]).2.2 rfl).1⟩

end App.ContactTerminal

/-! ## Theorems: TypewriterText under changes of the text prop -/

namespace App.TypewriterText

theorem charAt_length (text : JSString) (i : Nat) (h : i < text.length) :
    (charAt text i).length = 1 := by
  rw [charAt, List.get?_eq_getElem?, List.getElem?_eq_getElem h]
  rfl

theorem runCleanup_text (s : State) : (runCleanup s).text = s.text := by
  obtain ⟨text, displayText, currentIndex, timers, cleanup, nextId, mounted⟩ := s
  cases cleanup <;> rfl

/-- The effect run on an empty timer table of a mounted instance whose display has
`currentIndex` code units gives a synced state. -/
theorem effect_synced (s : State) (ht : s.timers = []) (hm : s.mounted = true)
    (hl : s.displayText.length = s.currentIndex) : Synced (effect s) := by
  refine ⟨effect_disciplined s ht hm, ?_, ?_⟩
  · obtain ⟨text, displayText, currentIndex, timers, cleanup, nextId, mounted⟩ := s
    simp only at hl
    by_cases h : currentIndex < text.length <;> simp [effect, h, hl]
  · obtain ⟨text, displayText, currentIndex, timers, cleanup, nextId, mounted⟩ := s
    simp only at ht
    subst ht
    by_cases h : currentIndex < text.length <;> simp [effect, h]

theorem rerender_synced (s : State) (hd : Disciplined s) (hm : s.mounted = true)
    (hl : s.displayText.length = s.currentIndex) : Synced (rerender s) := by
  apply effect_synced
  · exact runCleanup_timers s hd
  · rw [runCleanup_mounted]; exact hm
  · rw [(runCleanup_display s).1, (runCleanup_display s).2]; exact hl

theorem mount_synced (text : JSString) : Synced (mount text) :=
  effect_synced _ rfl rfl rfl

theorem step_synced (s : State) (e : Event) (h : Synced s) : Synced (step s e) := by
  have hd := step_disciplined s e h.1
  cases e with
  | unmount =>
    refine ⟨hd, ?_, ?_⟩
    · simp only [step, unmount]
      rw [(runCleanup_display s).1, (runCleanup_display s).2]
      exact h.2.1
    · have ht : (step s Event.unmount).timers = [] := runCleanup_timers s h.1
      intro t hmem
      rw [ht] at hmem
      simp at hmem
  | setText text =>
    simp only [step, setText]
    split
    · next hc =>
      simp only [Bool.and_eq_true] at hc
      exact rerender_synced _ ⟨h.1.1, h.1.2.1, h.1.2.2⟩ hc.1 h.2.1
    · exact h
  | tick =>
    obtain ⟨text, displayText, currentIndex, timers, cleanup, nextId, mounted⟩ := s
    obtain ⟨⟨h1, h2, h3⟩, hl, ht⟩ := h
    match timers, h1, h2, h3, ht with
    | [], h1, h2, h3, ht => exact ⟨⟨h1, h2, h3⟩, hl, ht⟩
    | [t], _, _, h3, ht =>
      have hm : mounted = true := by
        cases mounted
        · simp at h3
        · rfl
      subst hm
      have htt := ht t (by simp)
      simp only at htt hl
      simp only [step, tick, callback]
      simp only [if_true]
      apply rerender_synced
      · exact ⟨by simp, by simp, by simp⟩
      · rfl
      · simp only [List.length_append]
        rw [charAt_length t.text t.index htt.2.2, hl]
    | _ :: _ :: _, h1, _, _, _ => simp at h1

theorem run_synced (es : List Event) : ∀ s, Synced s → Synced (run s es) := by
  induction es with
  | nil => intro s h; exact h
  | cons e es ih => intro s h; exact ih (step s e) (step_synced s e h)

/-- C25 (as stated, refuted): after two ticks on the text abc the display is ab; the
text prop changes to xyz, the display is still ab, which is no prefix of xyz, and the
next tick makes it abz. After three ticks on abc a change to the text x leaves
`currentIndex` at 3, above the length 1 of the new text. -/
theorem text_change_breaks_display :
    (run (mount (utf16 "abc")) [Event.tick, Event.tick, Event.setText (utf16 "xyz")]).text
      = utf16 "xyz" ∧
    (run (mount (utf16 "abc")) [Event.tick, Event.tick,
      Event.setText (utf16 "xyz")]).displayText = utf16 "ab" ∧
    (run (mount (utf16 "abc")) [Event.tick, Event.tick,
      Event.setText (utf16 "xyz")]).displayText ≠ (utf16 "xyz").take 2 ∧
    (run (mount (utf16 "abc")) [Event.tick, Event.tick, Event.setText (utf16 "xyz"),
      Event.tick]).displayText = utf16 "abz" ∧
    (run (mount (utf16 "abc")) [Event.tick, Event.tick, Event.tick,
      Event.setText (utf16 "x")]).currentIndex = 3 ∧
    (run (mount (utf16 "abc")) [Event.tick, Event.tick, Event.tick,
      Event.setText (utf16 "x")]).text.length = 1 := by
  decide

/-- C25 (amended): for every sequence of ticks, changes of the text prop and unmount the
display has exactly `currentIndex` code units; a change of the text prop leaves
`displayText` and `currentIndex` as they are; and as long as the text prop is the one of
the mount, after any number of ticks the display is a prefix of it (its first
`currentIndex` code units) and `currentIndex` is at most its length. -/
theorem display_tracks_index (text : JSString) (es : List Event) (n : Nat) :
    (run (mount text) es).displayText.length = (run (mount text) es).currentIndex ∧
    (∀ t, (setText t (run (mount text) es)).displayText = (run (mount text) es).displayText ∧
      (setText t (run (mount text) es)).currentIndex = (run (mount text) es).currentIndex) ∧
    (ticks n (mount text)).text = text ∧
    (ticks n (mount text)).displayText = text.take (ticks n (mount text)).currentIndex ∧
    (ticks n (mount text)).currentIndex ≤ text.length := by
  have hs := run_synced es (mount text) (mount_synced text)
  refine ⟨hs.2.1, ?_, ?_⟩
  · intro t
    simp only [setText]
    split
    · simp only [rerender]
      constructor
      · have : ∀ u : State, (effect u).displayText = u.displayText := by
          intro u
          simp only [effect]
          split <;> rfl
        rw [this, (runCleanup_display _).1]
      · have : ∀ u : State, (effect u).currentIndex = u.currentIndex := by
          intro u
          simp only [effect]
          split <;> rfl
        rw [this, (runCleanup_display _).2]
    · exact ⟨rfl, rfl⟩
  · by_cases h : n < text.length
    · rw [ticks_mount_lt text n h]
      exact ⟨rfl, rfl, le_of_lt h⟩
    · rw [ticks_mount_ge text n (by omega), ticks_mount_length]
      exact ⟨rfl, (List.take_length text).symm, le_refl _⟩

end App.TypewriterText

/-! ## Theorems: strict order of the delays and the lag of the accent bars -/

namespace App.Reveal

theorem delay_eq_effectiveDelay (l : StaggeredList) (isMobile : Bool) (i : Nat) :
    delay l isMobile i = effectiveDelay (baseDelay l) (staggerInterval l isMobile) i := by
  cases l <;> simp only [delay, effectiveDelay, baseDelay, staggerInterval] <;> ring

theorem staggerInterval_pos (l : StaggeredList) (isMobile : Bool) :
    0 < staggerInterval l isMobile := by
  cases l <;> cases isMobile <;> simp only [staggerInterval, if_true, Bool.false_eq_true,
    if_false] <;> norm_num

theorem effectiveDelay_lt (base stagger : ℚ) (hs : 0 < stagger) (i j : Nat) (h : i < j) :
    effectiveDelay base stagger i < effectiveDelay base stagger j := by
  have hq : (i : ℚ) < (j : ℚ) := by exact_mod_cast h
  simp only [effectiveDelay]
  nlinarith

/-- C21: with `baseDelay = 0.1` and `stagger = 0.05` the effective delay of item `i` is
`0.1 + 0.05 × i` and is strictly increasing in `i`; for any base and any positive
stagger `base + index × stagger` is strictly increasing in the index; and every delay of
the program is of this form with a positive stagger, hence strictly increasing. -/
theorem delay_strictly_increasing (l : StaggeredList) (isMobile : Bool) (i j : Nat)
    (h : i < j) :
    effectiveDelay 0.1 0.05 i = 0.1 + 0.05 * i ∧
    effectiveDelay 0.1 0.05 i < effectiveDelay 0.1 0.05 j ∧
    (∀ base stagger : ℚ, 0 < stagger →
      effectiveDelay base stagger i < effectiveDelay base stagger j) ∧
    delay l isMobile i = effectiveDelay (baseDelay l) (staggerInterval l isMobile) i ∧
    0 < staggerInterval l isMobile ∧
    delay l isMobile i < delay l isMobile j := by
  refine ⟨by simp only [effectiveDelay]; ring, effectiveDelay_lt _ _ (by norm_num) i j h,
    fun base stagger hs => effectiveDelay_lt base stagger hs i j h,
    delay_eq_effectiveDelay l isMobile i, staggerInterval_pos l isMobile, ?_⟩
  rw [delay_eq_effectiveDelay, delay_eq_effectiveDelay]
  exact effectiveDelay_lt _ _ (staggerInterval_pos l isMobile) i j h

/-- Witness for `delay_strictly_increasing`: the third and the fourth skill card. -/
theorem delay_strictly_increasing_witness :
    2 < 3 ∧ delay StaggeredList.skillCards false 2 < delay StaggeredList.skillCards false 3 :=
  ⟨by decide, (delay_strictly_increasing StaggeredList.skillCards false 2 3 (by decide)).2.2.2.2.2⟩

/-- C30 (the code at the failing input): in the education list the cards use the
stagger 0.15 and the bars 0.2, so the lag of the bar behind its card is not the same for
all items: it is 0.5 for the first and 0.55 for the second. The skills, projects and
experience lists use one stagger for the card and its accent, whatever `isMobile`. -/
theorem education_bar_lag_not_constant :
    staggerInterval StaggeredList.educationCards false = 0.15 ∧
    staggerInterval StaggeredList.educationBars false = 0.2 ∧
    delay StaggeredList.educationBars false 0 - delay StaggeredList.educationCards false 0
      = 0.5 ∧
    delay StaggeredList.educationBars false 1 - delay StaggeredList.educationCards false 1
      = 0.55 ∧
    delay StaggeredList.educationBars false 1 - delay StaggeredList.educationCards false 1
      ≠ delay StaggeredList.educationBars false 0
        - delay StaggeredList.educationCards false 0 ∧
    (∀ isMobile, staggerInterval StaggeredList.skillBars isMobile
      = staggerInterval StaggeredList.skillCards isMobile) ∧
    (∀ isMobile, staggerInterval StaggeredList.projectBars isMobile
      = staggerInterval StaggeredList.projectCards isMobile) ∧
    (∀ isMobile, staggerInterval StaggeredList.experienceDots isMobile
      = staggerInterval StaggeredList.experienceCards isMobile) := by
  refine ⟨rfl, rfl, ?_, ?_, ?_, fun _ => rfl, fun _ => rfl, fun _ => rfl⟩ <;>
    norm_num [delay]

end App.Reveal

/-! ## Theorems: ProfessionalButton -/

namespace App.ProfessionalButton

/-- The test `href.startsWith("http")` holds exactly for the strings that are the text
http followed by anything. -/
theorem startsWith_http_iff (href : String) :
    startsWith href "http" = true ↔ ∃ rest : String, href = "http" ++ rest := by
  have hlen : "http".length = 4 := by decide
  have hlist : "http".toList = ['h', 't', 't', 'p'] := by decide
  simp only [startsWith, hlen, hlist, beq_iff_eq]
  constructor
  · intro h
    refine ⟨String.mk (href.toList.drop 4), ?_⟩
    apply String.ext
    have := List.take_append_drop 4 href.toList
    rw [h] at this
    simp only [String.data_append]
    exact this.symm
  · rintro ⟨rest, rfl⟩
    simp [String.toList, String.data_append]

/-- C27: for every `href` the link opens in a new tab (`target` is `_blank`) if and
only if `href` starts with http, and exactly then `rel` is `noopener noreferrer`;
otherwise `target` is `_self` and `rel` is empty. So no link has `target` `_blank`
without `rel` `noopener noreferrer`. -/
theorem blank_target_has_rel (href : String) :
    (target href = "_blank" ↔ ∃ rest : String, href = "http" ++ rest) ∧
    (rel href = "noopener noreferrer" ↔ ∃ rest : String, href = "http" ++ rest) ∧
    ((¬ ∃ rest : String, href = "http" ++ rest) → target href = "_self" ∧ rel href = "") ∧
    ¬ (target href = "_blank" ∧ rel href ≠ "noopener noreferrer") ∧
    target "https://drive.google.com/file" = "_blank" ∧
    rel "https://drive.google.com/file" = "noopener noreferrer" ∧
    target "#projects" = "_self" ∧ rel "#projects" = "" := by
  have hiff := startsWith_http_iff href
  cases hs : startsWith href "http" with
  | true =>
    have hex := hiff.mp hs
    refine ⟨?_, ?_, ?_, ?_, by decide, by decide, by decide, by decide⟩
    · simp [target, hs, hex]
    · simp [rel, hs, hex]
    · intro hn; exact absurd hex hn
    · simp [target, rel, hs]
  | false =>
    have hex : ¬ ∃ rest : String, href = "http" ++ rest := by
      intro h
      have := hiff.mpr h
      rw [hs] at this
      exact Bool.noConfusion this
    refine ⟨?_, ?_, ?_, ?_, by decide, by decide, by decide, by decide⟩
    · simp only [target, hs, Bool.false_eq_true, if_false]
      constructor
      · intro h; exact absurd h (by decide)
      · intro h; exact absurd h hex
    · simp only [rel, hs, Bool.false_eq_true, if_false]
      constructor
      · intro h; exact absurd h (by decide)
      · intro h; exact absurd h hex
    · intro _
      simp [target, rel, hs]
    · simp only [target, hs, Bool.false_eq_true, if_false]
      intro h
      exact absurd h.1 (by decide)

/-- Witness for `blank_target_has_rel`: the anchor link of the hero section. -/
theorem blank_target_has_rel_witness :
    (¬ ∃ rest : String, "#projects" = "http" ++ rest) ∧
    target "#projects" = "_self" ∧ rel "#projects" = "" := by
  have hn : ¬ ∃ rest : String, "#projects" = "http" ++ rest := by
    intro h
    have := (startsWith_http_iff "#projects").mpr h
    revert this
    decide
  exact ⟨hn, (blank_target_has_rel "#projects").2.2.1 hn⟩

end App.ProfessionalButton

/-! ## Theorems: the hero particles and network -/

namespace App.HeroSection

theorem drawsLine_iff (nodes : List Node) (index : Nat) :
    drawsLine nodes index = true ↔ index + 1 < nodes.length := by
  simp only [drawsLine, decide_eq_true_eq]
  omega

/-- Among the first `n` indices of a list of `m` nodes, `min n (m - 1)` have a line. -/
theorem lines_among_first (m : Nat) :
    ∀ n, ((List.range n).filter (fun i => decide (i + 1 < m))).length = min n (m - 1) := by
  intro n
  induction n with
  | zero => simp
  | succ n ih =>
    rw [List.range_succ, List.filter_append, List.length_append, ih]
    by_cases h : n + 1 < m
    · simp only [List.filter, h, decide_True, List.length_singleton]
      omega
    · simp only [List.filter, h, decide_False, List.length_nil]
      omega

/-- C28: the hero network never indexes past its node list. The node count is 8 when
`isMobile` and 20 otherwise, the particle count 50 and 150, and the lists have these
lengths; the line of node `i` is drawn exactly when `i < nodeCount − 1`; exactly
`nodeCount − 1` lines are drawn; and every access `connections[i + 1]` made for a line
finds a node. -/
theorem network_lines_in_bounds (isMobile : Bool) (random : Nat → ℚ) :
    (nodeCount true = 8 ∧ nodeCount false = 20 ∧
      particleCount true = 50 ∧ particleCount false = 150) ∧
    (connections isMobile random).length = nodeCount isMobile ∧
    (particles isMobile random).length = particleCount isMobile ∧
    (∀ i, drawsLine (connections isMobile random) i = true ↔ i < nodeCount isMobile - 1) ∧
    ((lineEnds (connections isMobile random)).filter Option.isSome).length
      = nodeCount isMobile - 1 ∧
    (∀ i, drawsLine (connections isMobile random) i = true →
      ∃ nd, (connections isMobile random).get? (i + 1) = some nd) ∧
    (∀ e ∈ lineEnds (connections isMobile random), e = none ∨ ∃ nd, e = some (some nd)) := by
  have hlen : (connections isMobile random).length = nodeCount isMobile := by
    simp [connections]
  have hpos : 1 ≤ nodeCount isMobile := by
    cases isMobile <;> simp [nodeCount]
  have hacc : ∀ i, drawsLine (connections isMobile random) i = true →
      ∃ nd, (connections isMobile random).get? (i + 1) = some nd := by
    intro i hi
    have hlt := (drawsLine_iff _ i).mp hi
    exact ⟨(connections isMobile random)[i + 1], by
      rw [List.get?_eq_getElem?, List.getElem?_eq_getElem hlt]⟩
  refine ⟨⟨rfl, rfl, rfl, rfl⟩, hlen, by simp [particles], ?_, ?_, hacc, ?_⟩
  · intro i
    rw [drawsLine_iff, hlen]
    omega
  · have hfilter : ((lineEnds (connections isMobile random)).filter Option.isSome).length
        = ((List.range (connections isMobile random).length).filter
            (fun i => decide (i + 1 < (connections isMobile random).length))).length := by
      simp only [lineEnds, List.filter_map, List.length_map]
      congr 1
      apply List.filter_congr
      intro i _
      by_cases hd : drawsLine (connections isMobile random) i = true
      · have := (drawsLine_iff _ i).mp hd
        simp [hd, this]
      · have hn : ¬ (i + 1 < (connections isMobile random).length) :=
          fun hlt => hd ((drawsLine_iff _ i).mpr hlt)
        simp [hd, hn]
    rw [hfilter, lines_among_first, hlen]
    omega
  · intro e he
    simp only [lineEnds, List.mem_map, List.mem_range] at he
    obtain ⟨i, _, rfl⟩ := he
    by_cases hd : drawsLine (connections isMobile random) i = true
    · obtain ⟨nd, hnd⟩ := hacc i hd
      right
      exact ⟨nd, by simp only [hd, if_true, hnd]⟩
    · left
      simp [hd]

/-- Witness for `network_lines_in_bounds`: on mobile the line of node 6 is drawn and its
end `connections[7]` exists. -/
theorem network_lines_in_bounds_witness :
    drawsLine (connections true (fun _ => 1 / 2)) 6 = true ∧
    ∃ nd, (connections true (fun _ => 1 / 2)).get? (6 + 1) = some nd :=
  ⟨(drawsLine_iff _ 6).mpr (by simp [connections, nodeCount]),
   (network_lines_in_bounds true (fun _ => 1 / 2)).2.2.2.2.2.1 6
     ((drawsLine_iff _ 6).mpr (by simp [connections, nodeCount]))⟩

/-- C29: with every random draw in `[0, 1)`, a node's `connections` is 1, 2 or 3; a
particle's size is in `[1, 3)` on mobile and `[1, 4)` otherwise, its speed in
`[0.1, 0.6)` and its opacity in `[0.2, 1)`; and the duration of its animation is 4 on
mobile and `3 + 2 × speed`, in `[3.2, 4.2)`, otherwise. -/
theorem hero_attributes_in_range (random : Nat → ℚ)
    (h : ∀ k, 0 ≤ random k ∧ random k < 1) (i : Nat) :
    ((node random i).connections = 1 ∨ (node random i).connections = 2 ∨
      (node random i).connections = 3) ∧
    (1 ≤ (particle true random i).size ∧ (particle true random i).size < 3) ∧
    (1 ≤ (particle false random i).size ∧ (particle false random i).size < 4) ∧
    (∀ m, 0.1 ≤ (particle m random i).speed ∧ (particle m random i).speed < 0.6) ∧
    (∀ m, 0.2 ≤ (particle m random i).opacity ∧ (particle m random i).opacity < 1) ∧
    particleDuration true (particle true random i) = 4 ∧
    particleDuration false (particle false random i)
      = 3 + 2 * (particle false random i).speed ∧
    (3.2 ≤ particleDuration false (particle false random i) ∧
      particleDuration false (particle false random i) < 4.2) := by
  have h2 := h (5 * i + 2)
  have h3 := h (5 * i + 3)
  have h4 := h (5 * i + 4)
  have hn := h (3 * i + 2)
  refine ⟨?_, ?_, ?_, ?_, ?_, rfl, ?_, ?_⟩
  · have hlo : (0 : ℤ) ≤ ⌊random (3 * i + 2) * 3⌋ := Int.floor_nonneg.mpr (by linarith)
    have hhi : ⌊random (3 * i + 2) * 3⌋ < 3 := Int.floor_lt.mpr (by push_cast; linarith)
    simp only [node]
    omega
  · simp only [particle, if_true]
    constructor <;> linarith
  · simp only [particle, Bool.false_eq_true, if_false]
    constructor <;> linarith
  · intro m
    simp only [particle]
    constructor <;> linarith
  · intro m
    simp only [particle]
    constructor <;> linarith
  · simp only [particleDuration, Bool.false_eq_true, if_false]
    ring
  · simp only [particleDuration, particle, Bool.false_eq_true, if_false]
    constructor <;> linarith

/-- Witness for `hero_attributes_in_range`: every draw equal to one half. -/
theorem hero_attributes_in_range_witness :
    (∀ k : Nat, (0 : ℚ) ≤ (fun _ => (1 / 2 : ℚ)) k ∧ (fun _ => (1 / 2 : ℚ)) k < 1) ∧
    particleDuration true (particle true (fun _ => 1 / 2) 7) = 4 ∧
    (1 ≤ (particle false (fun _ => 1 / 2) 7).size ∧
      (particle false (fun _ => 1 / 2) 7).size < 4) :=
  ⟨fun _ => ⟨by norm_num, by norm_num⟩,
   (hero_attributes_in_range (fun _ => 1 / 2) (fun _ => ⟨by norm_num, by norm_num⟩) 7).2.2.2.2.2.1,
   (hero_attributes_in_range (fun _ => 1 / 2) (fun _ => ⟨by norm_num, by norm_num⟩) 7).2.2.1⟩

end App.HeroSection
